import Mathlib

/-!
Verification development for the llm2hfss antenna-design pipeline.

This file gives a shallow embedding, in Lean 4, of the core of the
repository: the physics constants (`src/utils/physics.py`), the antenna
models (`src/src/antennas/dipole.py`, `src/src/antennas/patch.py`), the
intent parser (`src/src/agent/parser.py`), the JSON-extraction layer of
the generative-client adapter (`src/src/agent/llm_client.py`), the task
interpreter (`src/src/cad/hfss_manager.py`), the PyAEDT session wrapper
(`src/src/cad/pyaedt_wrapper.py`) and the orchestrator
(`src/src/agent/agent.py`).

Modelling conventions:
* Python floats are modelled as exact rational numbers (`ℚ`) wherever the
  program only performs field operations on them; geometry values that go
  through `** 0.5` or division live in `ℝ` (with `Real.sqrt` for the
  square root, the idealised meaning of the float power).
* Python's dynamically typed JSON-ish values are modelled by the inductive
  type `PyVal`; `None` is `PyVal.vnone`, dicts are ordered association
  lists (Python dicts preserve insertion order).
* Code that can raise is modelled in the `Except String` monad; an
  `Except.error` value models an uncaught Python exception, the string
  being the exception rendered as text.
* External effects (the generative-model network call, the real PyAEDT
  backend, environment variables) are cut at their interface: functions
  take the externally produced value (e.g. the parsed LLM output, the
  `use_pyaedt` flag) as an argument.
* Where the source formats a record into an f-string, the embedding keeps
  the same information as a constructor of an inductive type
  (`TaskOutcome`), one constructor per literal template in the source.
-/

/-! ## Physics constants (`src/utils/physics.py`) -/

/-- `physics.c = 299792458.0` (speed of light, m/s). -/
noncomputable def physics.c : ℝ := 299792458

/-- `physics.mu0 = 4e-7 * 3.141592653589793` (permeability of free space). -/
noncomputable def physics.mu0 : ℝ := 4e-7 * 3.141592653589793

/-- `physics.eps0 = 1.0 / (mu0 * c * c)` (permittivity of free space). -/
noncomputable def physics.eps0 : ℝ := 1.0 / (physics.mu0 * physics.c * physics.c)

/-! ## Antenna models (`src/src/antennas/dipole.py`, `src/src/antennas/patch.py`) -/

/-- The state of a `Dipole` instance after `__init__`: the two attributes
`self.frequency_hz` and `self.correction`.  Frequencies and correction
factors are Python floats, modelled as rationals. -/
structure Dipole where
  frequency_hz : ℚ
  correction : ℚ
deriving DecidableEq

/-- `Dipole.END_EFFECT_CORRECTION = 0.95`. -/
def Dipole.END_EFFECT_CORRECTION : ℚ := 0.95

/-- `Dipole.__init__(frequency_hz, correction=None)`: stores the frequency and
`float(correction) if correction is not None else END_EFFECT_CORRECTION`. -/
def Dipole.init (frequency_hz : ℚ) (correction : Option ℚ) : Dipole :=
  { frequency_hz := frequency_hz
    correction := correction.getD Dipole.END_EFFECT_CORRECTION }

/-- `Dipole.__init__` has no validation or failure path for numeric input:
its body is two attribute assignments (dipole.py lines 22-24).  The
`Except` wrapper records that construction never raises. -/
def Dipole.tryInit (frequency_hz : ℚ) (correction : Option ℚ) : Except String Dipole :=
  Except.ok (Dipole.init frequency_hz correction)

/-- The state of a `PatchAntenna` instance after `__init__`:
`self.frequency_hz` and `self.eps_r`. -/
structure PatchAntenna where
  frequency_hz : ℚ
  eps_r : ℚ
deriving DecidableEq

/-- `PatchAntenna.__init__(frequency_hz, eps_r=4.4)`. -/
def PatchAntenna.init (frequency_hz : ℚ) (eps_r : Option ℚ) : PatchAntenna :=
  { frequency_hz := frequency_hz, eps_r := eps_r.getD 4.4 }

/-- `PatchAntenna.__init__` has no validation or failure path for numeric
input (patch.py lines 15-17). -/
def PatchAntenna.tryInit (frequency_hz : ℚ) (eps_r : Option ℚ) : Except String PatchAntenna :=
  Except.ok (PatchAntenna.init frequency_hz eps_r)

/-- The dict returned by `design_params()`: one constructor per antenna
variant, one field per dict key, in insertion order.
For `Dipole`: `{"frequency_hz", "wavelength_m", "length_m", "radius_m",
"correction"}`; for `PatchAntenna`: `{"frequency_hz", "eps_r", "width_m",
"length_m"}`. -/
inductive AntParams where
  | dipole (frequency_hz : ℚ) (wavelength_m length_m radius_m : ℝ) (correction : ℚ)
  | patch (frequency_hz eps_r : ℚ) (width_m length_m : ℝ)

/-- `params.get("frequency_hz")`: both variants carry the key. -/
def AntParams.frequency_hz : AntParams → ℚ
  | .dipole f _ _ _ _ => f
  | .patch f _ _ _ => f

/-- The key list of the `design_params()` dict (used only when Python
iterates over such a dict, which yields its keys). -/
def AntParams.keys : AntParams → List String
  | .dipole _ _ _ _ _ => ["frequency_hz", "wavelength_m", "length_m", "radius_m", "correction"]
  | .patch _ _ _ _ => ["frequency_hz", "eps_r", "width_m", "length_m"]

/-- `Dipole.design_params` (dipole.py lines 45-56):
`wavelength = c / frequency_hz`; `length = wavelength / 2.0 * correction`;
`radius = wavelength * 0.005`. -/
noncomputable def Dipole.design_params (d : Dipole) : AntParams :=
  let wavelength : ℝ := physics.c / (d.frequency_hz : ℝ)
  let length : ℝ := wavelength / 2 * (d.correction : ℝ)
  let radius : ℝ := wavelength * 0.005
  .dipole d.frequency_hz wavelength length radius d.correction

/-- `PatchAntenna.design_params` (patch.py lines 19-26):
`W = c / (2 * fr) * (2 / (1 + eps_r)) ** 0.5`; `L = W * 0.95`.
The float power `** 0.5` is modelled by `Real.sqrt` (for a negative base
Python would produce a complex number; that never happens for the
dielectric constants the program uses). -/
noncomputable def PatchAntenna.design_params (p : PatchAntenna) : AntParams :=
  let W : ℝ := physics.c / (2 * (p.frequency_hz : ℝ)) * Real.sqrt (2 / (1 + (p.eps_r : ℝ)))
  let L : ℝ := W * 0.95
  .patch p.frequency_hz p.eps_r W L

/-! ## Python values

`PyVal` models the dynamically typed values that flow through the
pipeline: JSON scalars, strings, lists, dicts (ordered association
lists), Python `None`, and the `design_params()` dicts that the
orchestrator splices into task parameters. -/

inductive PyVal where
  | vnone
  | vnum (q : ℚ)
  | vstr (s : String)
  | vlist (xs : List PyVal)
  | vdict (fs : List (String × PyVal))
  | vparams (p : AntParams)

/-- Python truthiness (`bool(v)`): `None` and empty containers and `0` are
falsy.  A `design_params()` dict always has at least four entries, hence is
truthy. -/
def PyVal.truthy : PyVal → Bool
  | .vnone => false
  | .vnum q => q ≠ 0
  | .vstr s => !s.isEmpty
  | .vlist xs => !xs.isEmpty
  | .vdict fs => !fs.isEmpty
  | .vparams _ => true

/-- Python `a or b`: `a` if truthy, else `b`. -/
def PyVal.por (a b : PyVal) : PyVal := if a.truthy then a else b

/-- `d.get(k)` on a dict: the value at the first matching key, `None` if
absent. -/
def dictGet (fs : List (String × PyVal)) (k : String) : PyVal :=
  match fs.find? (fun p => p.1 == k) with
  | some p => p.2
  | none => PyVal.vnone

/-- `d[k] = v` semantics used by `dict.update`: overwrite the value in
place if the key exists (keeping its position), else append the pair. -/
def dictSet : List (String × PyVal) → String → PyVal → List (String × PyVal)
  | [], k, v => [(k, v)]
  | (k', v') :: t, k, v => if k' == k then (k, v) :: t else (k', v') :: dictSet t k v

/-- `d.update(kvs)`: `dictSet` for each pair of `kvs` in order. -/
def dictUpdate (fs : List (String × PyVal)) (kvs : List (String × PyVal)) :
    List (String × PyVal) :=
  kvs.foldl (fun acc kv => dictSet acc kv.1 kv.2) fs

/-- `v.get(k)` on an arbitrary value: dicts answer, everything else raises
`AttributeError`. -/
def PyVal.attrGet (v : PyVal) (k : String) : Except String PyVal :=
  match v with
  | .vdict fs => Except.ok (dictGet fs k)
  | _ => Except.error "AttributeError: object has no attribute \x27get\x27"

/-- `v.isDict`. -/
def PyVal.isDict : PyVal → Bool
  | .vdict _ => true
  | _ => false

/-- Python `v in (s1, ..., sn)` where the `si` are string literals: `==`
against each element; non-strings compare unequal to every string. -/
def PyVal.inStrs (v : PyVal) (names : List String) : Bool :=
  match v with
  | .vstr s => names.contains s
  | _ => false

/-- Iteration `for x in v`: lists yield elements, strings yield one-char
strings, dicts yield their keys; `None` and numbers raise `TypeError`. -/
def PyVal.iter : PyVal → Except String (List PyVal)
  | .vlist xs => Except.ok xs
  | .vstr s => Except.ok (s.toList.map fun c => PyVal.vstr (String.singleton c))
  | .vdict fs => Except.ok (fs.map fun p => PyVal.vstr p.1)
  | .vparams p => Except.ok (p.keys.map PyVal.vstr)
  | .vnone => Except.error "TypeError: \x27NoneType\x27 object is not iterable"
  | .vnum _ => Except.error "TypeError: \x27float\x27 object is not iterable"

/-- Python `\s` (ASCII range), also the character class of `str.strip`:
space, tab, newline, carriage return, vertical tab, form feed. -/
def pySpace (c : Char) : Bool :=
  c == ' ' || c == '\t' || c == '\n' || c == '\r' || c == '\x0b' || c == '\x0c'

/-- Python `\w` (ASCII range): letters, digits, underscore.  Used for the
`\b` word boundary after the unit of a frequency token. -/
def pyWordChar (c : Char) : Bool :=
  c.isAlpha || c.isDigit || c == '_'

/-- `s.lower()` on a Python string (ASCII case mapping). -/
def pyLowerStr (s : String) : String :=
  String.mk (s.toList.map Char.toLower)

/-- `s.strip()` on a Python string: drop leading and trailing
whitespace. -/
def pyStrip (s : String) : String :=
  String.mk (((s.toList.dropWhile pySpace).reverse.dropWhile pySpace).reverse)

/-- `v.lower()`: strings lower-case, everything else raises
`AttributeError`. -/
def PyVal.lower : PyVal → Except String String
  | .vstr s => Except.ok (pyLowerStr s)
  | _ => Except.error "AttributeError: object has no attribute \x27lower\x27"

/-- `dict(v)`: a dict is (value-)copied; a list of `[key, value]` pairs
with string keys builds a dict; other values raise `TypeError`.  (Python
also accepts iterables of pairs with non-string keys; such keys cannot
occur in the JSON-derived values this program feeds to `dict`.) -/
def PyVal.toDict : PyVal → Except String (List (String × PyVal))
  | .vdict fs => Except.ok fs
  | .vlist xs => xs.foldrM
      (fun x acc =>
        match x with
        | .vlist [PyVal.vstr k, v] => Except.ok ((k, v) :: acc)
        | _ => Except.error "TypeError: cannot convert to dict")
      []
  | _ => Except.error "TypeError: cannot convert to dict"

/-! ## Intent parser (`src/src/agent/parser.py`)

`Parser.FREQ_RE` is the pattern `(\d+(?:\.\d+)?)\s*(ghz|mhz|khz|hz)\b`
compiled with `re.IGNORECASE`; `_extract_frequencies` runs `finditer`
over the text, converting each match with the unit factors.  The scanner
below implements exactly this matching discipline: at each position try
to match (digits, optional dot-digits fraction, whitespace, a unit word
followed by a word boundary); on success emit the converted value and
continue after the match, on failure advance one character.  Greedy
matching needs no backtracking for this pattern because a digit run can
only be followed by a token continuation that starts with a non-digit. -/

/-- Split a leading run of decimal digits from the rest. -/
def splitDigits : List Char → List Char × List Char
  | [] => ([], [])
  | c :: t =>
    if c.isDigit then
      let p := splitDigits t
      (c :: p.1, p.2)
    else ([], c :: t)

/-- Numeric value of a digit string (most significant first). -/
def digitsToNat : List Char → Nat
  | [] => 0
  | c :: t => digitsToNat t + (c.toNat - 48) * 10 ^ t.length

/-- `float(m.group(1))` for a match with integer digits `ip` and optional
fraction digits `fp` (exact decimal value; floats are modelled as
rationals). -/
def numValue (ip fp : List Char) : ℚ :=
  (digitsToNat ip : ℚ) + (digitsToNat fp : ℚ) / 10 ^ fp.length

/-- Match one of the unit alternatives `ghz|mhz|khz|hz` case-insensitively
at the head of the list; return the hertz conversion factor and the rest.
The four alternatives start with distinct letters, so the alternation
order of the pattern does not matter. -/
def matchUnit : List Char → Option (ℚ × List Char)
  | c1 :: c2 :: c3 :: rest =>
    if c1.toLower == 'g' && c2.toLower == 'h' && c3.toLower == 'z' then some (1000000000, rest)
    else if c1.toLower == 'm' && c2.toLower == 'h' && c3.toLower == 'z' then some (1000000, rest)
    else if c1.toLower == 'k' && c2.toLower == 'h' && c3.toLower == 'z' then some (1000, rest)
    else if c1.toLower == 'h' && c2.toLower == 'z' then some (1, c3 :: rest)
    else none
  | [c1, c2] => if c1.toLower == 'h' && c2.toLower == 'z' then some (1, []) else none
  | _ => none

/-- The `\b` word boundary after the unit: end of text or a non-word
character. -/
def boundaryOk : List Char → Bool
  | [] => true
  | c :: _ => !pyWordChar c

/-- Try to match the whole frequency token at the head of the list; on
success return the converted hertz value and the rest of the text after
the match. -/
def tryTok : List Char → Option (ℚ × List Char)
  | [] => none
  | c :: t =>
    if c.isDigit then
      let p1 := splitDigits (c :: t)
      let p2 : List Char × List Char :=
        match p1.2 with
        | x :: u =>
          if x == '.' then
            let pf := splitDigits u
            if pf.1.isEmpty then ([], p1.2) else pf
          else ([], p1.2)
        | [] => ([], p1.2)
      let r3 := p2.2.dropWhile pySpace
      match matchUnit r3 with
      | some (fac, r4) =>
        if boundaryOk r4 then some (numValue p1.1 p2.1 * fac, r4) else none
      | none => none
    else none

/-- The `finditer` loop: scan left to right, emitting each match and
resuming after it.  `fuel` is a structural-recursion bound; every step
consumes at least one character, so `fuel = length of the text` gives the
unbounded semantics (proved below as `scanAux_fuel_irrelevant`). -/
def scanAux : Nat → List Char → List ℚ
  | 0, _ => []
  | _ + 1, [] => []
  | fuel + 1, c :: t =>
    match tryTok (c :: t) with
    | some (v, rest) => v :: scanAux fuel rest
    | none => scanAux fuel t

/-- `Parser._extract_frequencies(text)`. -/
def Parser.extract_frequencies (text : String) : List ℚ :=
  scanAux text.toList.length text.toList

/-- Substring containment, `needle in hay` on Python strings. -/
def listHasSub (needle : List Char) : List Char → Bool
  | [] => needle.isEmpty
  | c :: t => needle.isPrefixOf (c :: t) || listHasSub needle t

/-- The antenna-type hint of `Parser.parse` (parser.py lines 39-43): first
set `"dipole"` when the (already stripped) text mentions it, then
unconditionally overwrite with `"patch"` when the text mentions "patch"
or "microstrip"; `None` when neither matches. -/
def Parser.antennaTypeHint (text : String) : PyVal :=
  let lower := pyLowerStr text
  let hint0 : PyVal :=
    if listHasSub "dipole".toList lower.toList then PyVal.vstr "dipole" else PyVal.vnone
  if listHasSub "patch".toList lower.toList || listHasSub "microstrip".toList lower.toList
  then PyVal.vstr "patch" else hint0

/-- `Parser.parse(prompt)` (parser.py lines 24-50): returns the dict
`{"intent", "raw", "antenna_type", "frequencies_hz"}` built from the
stripped text. -/
def Parser.parse (prompt : String) : PyVal :=
  let text := pyStrip prompt
  let freqs := Parser.extract_frequencies text
  let hint := Parser.antennaTypeHint text
  PyVal.vdict
    [("intent", PyVal.vstr "design_antenna"),
     ("raw", PyVal.vstr text),
     ("antenna_type", hint),
     ("frequencies_hz", PyVal.vlist (freqs.map PyVal.vnum))]

/-! ## Generative client adapter (`src/src/agent/llm_client.py`) -/

/-- Index of the first occurrence of `c` (`str.find`). -/
def firstIdxOf (c : Char) : List Char → Option Nat
  | [] => none
  | x :: t => if x == c then some 0 else (firstIdxOf c t).map (fun i => i + 1)

/-- Index of the last occurrence of `c` (`str.rfind`). -/
def lastIdxOf (c : Char) : List Char → Option Nat
  | [] => none
  | x :: t =>
    match lastIdxOf c t with
    | some i => some (i + 1)
    | none => if x == c then some 0 else none

/-- `text[a:b+1]`. -/
def sliceIncl (cs : List Char) (a b : Nat) : List Char :=
  (cs.drop a).take (b - a + 1)

/-- `ValueError("No JSON object found in LLM output")` raised by
`_extract_json` when no brace pair exists. -/
def LLMClient.noJsonMsg : String := "No JSON object found in LLM output"

/-- `re.search` of the compiled pattern `(\x7b.*\x7d)` with `re.S`
(DOTALL): the leftmost match starts at the first opening brace that has a
closing brace after it and, `.*` being greedy, extends to the last
closing brace of the whole text.  Such a match exists exactly when the
first opening brace precedes the last closing brace, and then the first
opening brace overall already has a closing brace after it. -/
def LLMClient.regexSearchBraces (cs : List Char) : Option (List Char) :=
  match firstIdxOf '\x7b' cs, lastIdxOf '\x7d' cs with
  | some a, some b => if a < b then some (sliceIncl cs a b) else none
  | _, _ => none

/-- `LLMClient._extract_json(text)` (llm_client.py lines 163-173): the
regex search, then the `find`/`rfind` fallback, then
`ValueError("No JSON object found in LLM output")`. -/
def LLMClient.extract_json (cs : List Char) : Except String (List Char) :=
  match LLMClient.regexSearchBraces cs with
  | some m => Except.ok m
  | none =>
    match firstIdxOf '\x7b' cs, lastIdxOf '\x7d' cs with
    | some s, some e =>
      if s < e then Except.ok (sliceIncl cs s e) else Except.error LLMClient.noJsonMsg
    | _, _ => Except.error LLMClient.noJsonMsg

/-- `LLMClient.generate_json` from the point where the raw model response
`raw` is in hand (llm_client.py lines 189-196); `loads` stands for
`json.loads`, which is stdlib code outside this repository - the theorems
below hold for every such decoder.  An extraction failure propagates
unchanged; a parse failure is
re-raised with the raw text appended. -/
def LLMClient.generate_json_from (raw : String) (loads : String → Except String PyVal) :
    Except String PyVal :=
  match LLMClient.extract_json raw.toList with
  | Except.error e => Except.error e
  | Except.ok jchars =>
    match loads (String.mk jchars) with
    | Except.ok v => Except.ok v
    | Except.error e =>
      Except.error ("Failed to parse JSON from LLM output: " ++ e ++ "\nRaw output:\n" ++ raw)

/-! ## Python `float()` conversion (used by the antenna constructors via
`float(frequency_hz)` when the orchestrator builds antennas from JSON
values) -/

/-- Exponent suffix of a float literal: optional sign, then digits,
consuming the whole rest. -/
def parseExpDigits (cs : List Char) : Option Nat :=
  let p := splitDigits cs
  if p.1.isEmpty then none else if p.2.isEmpty then some (digitsToNat p.1) else none

/-- Signed exponent of a float literal. -/
def parseExp : List Char → Option ℤ
  | '+' :: t => (parseExpDigits t).map fun n => (n : ℤ)
  | '-' :: t => (parseExpDigits t).map fun n => -(n : ℤ)
  | cs => (parseExpDigits cs).map fun n => (n : ℤ)

/-- Unsigned float literal: `digits [. digits] [(e|E) exponent]` with a
non-empty mantissa (`"1."` and `".5"` are accepted, as in Python). -/
def parseUnsignedFloat (cs : List Char) : Option ℚ :=
  let p1 := splitDigits cs
  let hasDot := match p1.2 with | '.' :: _ => true | _ => false
  let afterDot := match p1.2 with | '.' :: u => u | _ => p1.2
  let p2 := if hasDot then splitDigits afterDot else ([], p1.2)
  if p1.1.isEmpty && p2.1.isEmpty then none
  else
    let base := numValue p1.1 p2.1
    match p2.2 with
    | [] => some base
    | e :: t =>
      if e == 'e' || e == 'E' then
        match parseExp t with
        | some k => some (base * (10 : ℚ) ^ k)
        | none => none
      else none

/-- `float(s)` for a string: strip surrounding whitespace, optional sign,
then a float literal (`inf`/`nan` are not modelled; the program never
feeds them in). -/
def pyFloatOfString (s : String) : Except String ℚ :=
  let cs := ((s.toList.dropWhile pySpace).reverse.dropWhile pySpace).reverse
  let v : Option ℚ :=
    match cs with
    | '+' :: t => parseUnsignedFloat t
    | '-' :: t => (parseUnsignedFloat t).map Neg.neg
    | _ => parseUnsignedFloat cs
  match v with
  | some q => Except.ok q
  | none => Except.error ("ValueError: could not convert string to float: " ++ s)

/-- `float(v)`: numbers pass through (floats are already exact here),
strings are parsed, everything else raises `TypeError`. -/
def PyVal.toFloat : PyVal → Except String ℚ
  | .vnum q => Except.ok q
  | .vstr s => pyFloatOfString s
  | .vnone => Except.error
      "TypeError: float() argument must be a string or a real number, not \x27NoneType\x27"
  | _ => Except.error "TypeError: float() argument must be a string or a real number"

/-! ## Task interpreter (`src/src/cad/hfss_manager.py`)

`HFSSManager.__enter__` imports pyaedt only when `use_pyaedt is None`;
the orchestrator always passes an explicit boolean, so `self._pyaedt`
stays `None` and the session is always the plain dict
`{"connected": True, "project": ...}`.  Consequently
`getattr(self.session, "modeler", None)` and
`getattr(self.session, "solve", None)` are always `None`, while
`self.use_pyaedt` keeps the caller's value. -/

structure HFSSManager where
  project_name : String
  non_graphical : Bool
  use_pyaedt : Bool

/-- `getattr(self.session, "modeler", None)` truthiness: always false,
because the session is a plain dict (see section comment). -/
def HFSSManager.sessionModeler : Bool := false

/-- `getattr(self.session, "solve", None)` truthiness: always false. -/
def HFSSManager.sessionSolve : Bool := false

/-- The descriptor dict returned by `HFSSManager.build_dipole`:
`{"type", "params", "built_in_hfss", "note"}`. -/
structure BuildDesc where
  type : String
  params : AntParams
  built_in_hfss : Bool
  note : String

/-- `HFSSManager.build_dipole(dipole_params)` (hfss_manager.py lines
66-81). -/
def HFSSManager.build_dipole (m : HFSSManager) (dipole_params : AntParams) : BuildDesc :=
  { type := "dipole"
    params := dipole_params
    built_in_hfss := m.use_pyaedt
    note := if m.use_pyaedt && HFSSManager.sessionModeler then
        "Real HFSS build executed (details omitted)."
      else "Mock build; pyaedt not available." }

/-- The `result` field of a task-log record.  Each constructor corresponds
to one literal f-string template of `apply_tasks` (hfss_manager.py lines
94-113), carrying the interpolated value:
`geometryCreated p` is `f"Geometry created: (p)"`,
`excitationAssigned p` is `f"Excitation assigned: (p)"`,
`boundaryAssigned p` is `f"Boundary assigned: (p)"`,
`setupCreated p` is `f"Setup created: (p)"`,
`simulationExecuted` is `"Simulation executed (Mock)"`,
`dataExported` is `"Data exported (S11.csv)"`,
`unknownAction a` is `f"Unknown action \x27(a)\x27"`. -/
inductive TaskOutcome where
  | geometryCreated (params : PyVal)
  | excitationAssigned (params : PyVal)
  | boundaryAssigned (params : PyVal)
  | setupCreated (params : PyVal)
  | simulationExecuted
  | dataExported
  | unknownAction (action : PyVal)

/-- One entry of the `apply_tasks` log:
`{"id": tid, "action": action, "result": ...}`. -/
structure LogEntry where
  id : PyVal
  action : PyVal
  result : TaskOutcome

/-- The value returned by `apply_tasks`: `{"status": ..., "log": ...}`. -/
structure TaskExecResult where
  status : String
  log : List LogEntry

/-- The body of the `for t in tasks` loop of `apply_tasks` for one task.
For a dict task the `try` block cannot raise (`dict.get` is total and the
branch bodies only format strings), so processing returns a record.  For a
non-dict `t`, `t.get("id")` raises `AttributeError`; the `except` handler
then evaluates `t.get("id")` again while building the error record, which
re-raises, so the exception escapes `apply_tasks` - modelled as
`Except.error`. -/
def processTask (t : PyVal) : Except String LogEntry :=
  match t with
  | PyVal.vdict fs =>
    let tid := dictGet fs "id"
    let action := dictGet fs "action"
    let params := (dictGet fs "params").por (PyVal.vdict [])
    Except.ok
      { id := tid, action := action
        result :=
          if action.inStrs ["create_substrate", "create_patch", "create_dipole", "model"] then
            TaskOutcome.geometryCreated params
          else if action.inStrs ["assign_excitation", "assign_port"] then
            TaskOutcome.excitationAssigned params
          else if action.inStrs ["assign_boundary", "assign_perfect_e"] then
            TaskOutcome.boundaryAssigned params
          else if action.inStrs ["create_setup", "analysis_setup"] then
            TaskOutcome.setupCreated params
          else if action.inStrs ["analyze", "solve"] then
            TaskOutcome.simulationExecuted
          else if action.inStrs ["export_report", "postprocess"] then
            TaskOutcome.dataExported
          else TaskOutcome.unknownAction action }
  | _ => Except.error "AttributeError: object has no attribute \x27get\x27"

/-- The `for` loop of `apply_tasks`: process tasks strictly in sequence
order, stopping only when a task escapes the handler (see
`processTask`). -/
def processTasks : List PyVal → Except String (List LogEntry)
  | [] => Except.ok []
  | t :: rest => do
    let e ← processTask t
    let es ← processTasks rest
    return e :: es

/-- `HFSSManager.apply_tasks(tasks)` (hfss_manager.py lines 83-119).  The
`status` variable starts `"ok"` and is reassigned `"error"` only inside
the `except` handler; since the handler always re-raises (see
`processTask`), every value actually returned has `status = "ok"`. -/
def HFSSManager.apply_tasks (_ : HFSSManager) (tasks : List PyVal) :
    Except String TaskExecResult := do
  let log ← processTasks tasks
  return { status := "ok", log := log }

/-- The mock-simulation result dict of `HFSSManager.run_simulation`:
`{"status", "resonant_freq_hz", "input_impedance_ohm", "gain_dbi"}`. -/
structure SimResult where
  status : String
  resonant_freq_hz : ℚ
  input_impedance_ohm : ℚ
  gain_dbi : ℚ

/-- `HFSSManager.run_simulation(built_model)` (hfss_manager.py lines
120-140).  The real branch is dead (`sessionSolve` is always false, see
the section comment).  The mock branch computes
`freq = params.get("frequency_hz") or (params.get("frequency_hz_list") and ...)`;
a design-params dict always carries `"frequency_hz"` and never
`"frequency_hz_list"`, so `freq` is the frequency when it is non-zero
(truthy) and otherwise falls through `if not freq` to `1.0e9`. -/
def HFSSManager.run_simulation (_ : HFSSManager) (built : BuildDesc) : SimResult :=
  let params := built.params
  let freq : ℚ := if params.frequency_hz ≠ 0 then params.frequency_hz else 1000000000
  { status := "mock", resonant_freq_hz := freq, input_impedance_ohm := 73, gain_dbi := 2.15 }

/-! ## PyAEDT session wrapper (`src/src/cad/pyaedt_wrapper.py`) -/

/-- State of a `PyAedtSession`: `use_pyaedt`, whether the pyaedt module
object is held (`self._pyaedt is not None`), the `mock` flag and the
session log list (`self.log`). -/
structure PyAedtSession where
  project_name : String
  non_graphical : Bool
  use_pyaedt : Bool
  hasPyaedt : Bool
  mock : Bool
  log : List PyVal

/-- `PyAedtSession.__init__` (pyaedt_wrapper.py lines 10-31).  `importOk`
models whether `importlib.import_module("ansys.aedt.core")` succeeds (an
external condition).  `mock` starts `True` and `log` starts empty. -/
def PyAedtSession.init (project_name : Option String) (non_graphical : Bool)
    (use_pyaedt : Option Bool) (importOk : Bool) : PyAedtSession :=
  let pn := match project_name with
    | some s => if s.isEmpty then "NeuroRF_Project" else s
    | none => "NeuroRF_Project"
  match use_pyaedt with
  | none =>
    { project_name := pn, non_graphical := non_graphical
      use_pyaedt := importOk, hasPyaedt := importOk, mock := true, log := [] }
  | some true =>
    { project_name := pn, non_graphical := non_graphical
      use_pyaedt := importOk, hasPyaedt := importOk, mock := true, log := [] }
  | some false =>
    { project_name := pn, non_graphical := non_graphical
      use_pyaedt := false, hasPyaedt := false, mock := true, log := [] }

/-- `PyAedtSession.__enter__` (lines 33-53): attempts the HFSS connection
only when pyaedt is wanted and importable; `connectOk` models whether the
external `Hfss(...)` constructor succeeds.  On any other path the session
stays mock. -/
def PyAedtSession.enter (s : PyAedtSession) (connectOk : Bool) : PyAedtSession :=
  if s.use_pyaedt && s.hasPyaedt then
    if connectOk then { s with mock := false } else { s with mock := true }
  else { s with mock := true }

/-- `PyAedtSession.add_dipole(params)` (lines 64-89).  The mock branch
returns its descriptor immediately; the real branch issues external
drawing calls (`drawOk` models whether they raise) and returns a drawn or
error descriptor.  No branch touches `self.log`. -/
def PyAedtSession.add_dipole (s : PyAedtSession) (_ : PyVal) (drawOk : Bool) :
    PyVal × PyAedtSession :=
  if s.mock then
    (PyVal.vdict [("name", PyVal.vstr "dipole_mock"), ("status", PyVal.vstr "mocked")], s)
  else if drawOk then
    (PyVal.vdict [("name", PyVal.vstr "Dipole"), ("status", PyVal.vstr "drawn")], s)
  else (PyVal.vdict [("status", PyVal.vstr "error")], s)

/-- `PyAedtSession.add_patch(params)` (lines 91-132): same shape as
`add_dipole`; no branch touches `self.log`. -/
def PyAedtSession.add_patch (s : PyAedtSession) (_ : PyVal) (drawOk : Bool) :
    PyVal × PyAedtSession :=
  if s.mock then
    (PyVal.vdict [("name", PyVal.vstr "patch_mock"), ("status", PyVal.vstr "mocked")], s)
  else if drawOk then
    (PyVal.vdict [("name", PyVal.vstr "Patch"), ("status", PyVal.vstr "drawn")], s)
  else (PyVal.vdict [("status", PyVal.vstr "error")], s)

/-- `PyAedtSession.assign_port(target, params)` (lines 148-149): returns
`{"status": "done"}` unconditionally; does not touch `self.log`. -/
def PyAedtSession.assign_port (s : PyAedtSession) (_ _ : PyVal) : PyVal × PyAedtSession :=
  (PyVal.vdict [("status", PyVal.vstr "done")], s)

/-! ## Orchestrator (`src/src/agent/agent.py`)

`Agent.run_design(user_request, request_id=None, use_pyaedt=None)` is
modelled from the point where `parsed = self.llm.generate_json(cot_prompt)`
has returned: `parsed` is passed in as a value (the network call is the
external boundary), and `use_pyaedt` is passed as the already-resolved
boolean (the source resolves `None` from the `USE_PYAEDT` environment
variable, an external read).  The chain-of-thought prompt construction has
no effect on anything downstream of `parsed` and is not modelled.

One deviation from Python operational detail: `t_copy = dict(t)` is a
shallow copy, so `t_copy.setdefault("params", {}).update(...)` mutates
params dicts that are shared with the caller-supplied task list; the
embedding uses value semantics instead.  The per-antenna enriched task
lists and their execution logs are identical under both readings (the
f-strings render the params at formatting time); only the task dicts
reachable from the returned `spec_from_llm` field would show the residual
mutation, which no property below inspects. -/

/-- `ValueError` raised when the LLM output has no non-empty `tasks` list
(agent.py lines 57-58). -/
def Agent.tasksErrorMsg : String :=
  "LLM output must include a non-empty \x27tasks\x27 array describing the ordered modelling workflow."

/-- The antenna objects the orchestrator instantiates: a closed union of
the two variants. -/
inductive Antenna where
  | dipole (d : Dipole)
  | patch (p : PatchAntenna)

/-- Dynamic dispatch of `ant.design_params()`. -/
noncomputable def Antenna.design_params : Antenna → AntParams
  | .dipole d => d.design_params
  | .patch p => p.design_params

/-- `ant.__class__.__name__`. -/
def Antenna.className : Antenna → String
  | .dipole _ => "Dipole"
  | .patch _ => "PatchAntenna"

/-- `isinstance(ant, Dipole)`. -/
def Antenna.isDipole : Antenna → Bool
  | .dipole _ => true
  | .patch _ => false

/-- The `for f in ...` antenna-construction loop (agent.py lines 64-73):
skip falsy entries, then choose the variant by substring match on
`antenna_type.lower()` (which raises for a non-string type value), then
convert `f` with `float` inside the constructor. -/
def Agent.buildAntennas (antenna_type : PyVal) : List PyVal → Except String (List Antenna)
  | [] => Except.ok []
  | f :: rest =>
    if f.truthy = false then Agent.buildAntennas antenna_type rest
    else do
      let low ← antenna_type.lower
      let q ← f.toFloat
      let ant :=
        if listHasSub "dipole".toList low.toList then Antenna.dipole (Dipole.init q none)
        else if listHasSub "patch".toList low.toList then Antenna.patch (PatchAntenna.init q none)
        else Antenna.dipole (Dipole.init q none)
      let rest' ← Agent.buildAntennas antenna_type rest
      return ant :: rest'

/-- `t_copy.setdefault(key, {}).update(kvs)`: if `key` is absent, insert a
fresh dict built from `kvs` (appended at the end, as Python inserts new
keys); if present with a dict value, update that dict in place (its
position is kept); if present with a non-dict value, `.update` raises
`AttributeError`. -/
def Agent.setdefaultUpdate (fs : List (String × PyVal)) (key : String)
    (kvs : List (String × PyVal)) : Except String (List (String × PyVal)) :=
  match fs.find? (fun p => p.1 == key) with
  | none => Except.ok (fs ++ [(key, PyVal.vdict (dictUpdate [] kvs))])
  | some p =>
    match p.2 with
    | PyVal.vdict ps => Except.ok (dictSet fs key (PyVal.vdict (dictUpdate ps kvs)))
    | _ => Except.error "AttributeError: object has no attribute \x27update\x27"

/-- The per-task enrichment step of the orchestrator (agent.py lines
87-94): `t_copy = dict(t)`, then merge `{"geometry": g}` into the params
of `create_geometry`/`model` tasks and `{"frequency_hz_list": freqs}`
into the params of `setup_analysis`/`analysis_setup` tasks. -/
def Agent.enrich_task (g freqs t : PyVal) : Except String PyVal := do
  let fs ← t.toDict
  let fs ←
    if (dictGet fs "action").inStrs ["create_geometry", "model"] then
      Agent.setdefaultUpdate fs "params" [("geometry", g)]
    else pure fs
  let fs ←
    if (dictGet fs "action").inStrs ["setup_analysis", "analysis_setup"] then
      Agent.setdefaultUpdate fs "params" [("frequency_hz_list", freqs)]
    else pure fs
  return PyVal.vdict fs

/-- `tasks_for_model`: the enrichment loop over the whole task list. -/
def Agent.enrichTasks (g freqs : PyVal) : List PyVal → Except String (List PyVal)
  | [] => Except.ok []
  | t :: rest => do
    let t' ← Agent.enrich_task g freqs t
    let rest' ← Agent.enrichTasks g freqs rest
    return t' :: rest'

/-- One per-antenna entry of the response (agent.py lines 102-108). -/
structure AntennaEntry where
  type : String
  params : AntParams
  built : BuildDesc
  task_execution : TaskExecResult
  simulation : SimResult

/-- The body of the `for ant in antennas` loop (agent.py lines 83-108).
Line 97 reads
`built = hfss.build_dipole(params) if isinstance(ant, Dipole) else hfss.build_dipole(params)`:
both branches of the conditional expression call `build_dipole`. -/
noncomputable def Agent.processAnt (mgr : HFSSManager) (freqs : PyVal) (tasks : List PyVal)
    (ant : Antenna) : Except String AntennaEntry := do
  let params := ant.design_params
  let tfm ← Agent.enrichTasks (PyVal.vparams params) freqs tasks
  let built := if ant.isDipole then mgr.build_dipole params else mgr.build_dipole params
  let texec ← mgr.apply_tasks tfm
  let sim := mgr.run_simulation built
  return { type := ant.className, params := params, built := built
           task_execution := texec, simulation := sim }

/-- The antenna loop, in order. -/
noncomputable def Agent.processAnts (mgr : HFSSManager) (freqs : PyVal) (tasks : List PyVal) :
    List Antenna → Except String (List AntennaEntry)
  | [] => Except.ok []
  | ant :: rest => do
    let e ← Agent.processAnt mgr freqs tasks ant
    let es ← Agent.processAnts mgr freqs tasks rest
    return e :: es

/-- The response object of `run_design` (agent.py line 75). -/
structure RunResult where
  request : String
  spec_from_llm : PyVal
  antennas : List AntennaEntry

/-- The body of `Agent.run_design` (agent.py lines 35-110, modelled from
the point where the generative call has produced `parsed`), with the six
`.get` lookups abstracted as arguments.  Normalization (lines 53-61):
`antenna_type = parsed.get("antenna_type") or spec.get("antenna_type") or "dipole"`,
`freqs = parsed.get("frequencies_hz") or spec.get("frequencies_hz") or []`,
then the non-empty-`tasks` check (raising `ValueError` otherwise), then
scalar frequencies are wrapped into a one-element list.  The antenna loop
iterates `freqs or [parsed.get("frequency_hz")]`.  The `HFSSManager` is
constructed with the explicit `use_pyaedt` flag and `non_graphical=True`;
its `__exit__` on the mock session has no observable effect. -/
noncomputable def Agent.normalizeAndRun (user_request : String) (parsed : PyVal)
    (use_pyaedt : Bool) (at1 at2 f1 f2 tasksV fhz : PyVal) : Except String RunResult := do
  let antenna_type := (at1.por at2).por (PyVal.vstr "dipole")
  let freqs0 := (f1.por f2).por (PyVal.vlist [])
  let tasks ←
    match tasksV with
    | PyVal.vlist ts =>
      if ts.isEmpty then Except.error Agent.tasksErrorMsg else Except.ok ts
    | _ => Except.error Agent.tasksErrorMsg
  let freqs :=
    match freqs0 with
    | PyVal.vnum q => PyVal.vlist [PyVal.vnum q]
    | _ => freqs0
  let iterVals ← (freqs.por (PyVal.vlist [fhz])).iter
  let antennas ← Agent.buildAntennas antenna_type iterVals
  let mgr : HFSSManager :=
    { project_name := "NeuroRF_project", non_graphical := true, use_pyaedt := use_pyaedt }
  let entries ← Agent.processAnts mgr freqs tasks antennas
  return { request := user_request, spec_from_llm := parsed, antennas := entries }

/-- The entry point: perform the `.get` lookups on the parsed LLM output
and the parser spec (raising `AttributeError` when `parsed` is not a
dict), then normalize and run.  The `parsed.get("frequency_hz")` of
agent.py line 65 is evaluated lazily inside a list display in the source;
hoisting it is observation-equivalent because `.get` on a dict cannot
raise and `parsed` is already known to be a dict at that point. -/
noncomputable def Agent.run_design (user_request : String) (parsed : PyVal)
    (use_pyaedt : Bool) : Except String RunResult := do
  let spec := Parser.parse user_request
  let at1 ← parsed.attrGet "antenna_type"
  let at2 ← spec.attrGet "antenna_type"
  let f1 ← parsed.attrGet "frequencies_hz"
  let f2 ← spec.attrGet "frequencies_hz"
  let tasksV ← parsed.attrGet "tasks"
  let fhz ← parsed.attrGet "frequency_hz"
  Agent.normalizeAndRun user_request parsed use_pyaedt at1 at2 f1 f2 tasksV fhz

/-! ## Specification predicates used by the theorems -/

/-- The full closed action vocabulary recognized by `apply_tasks`
(hfss_manager.py lines 94-110): the union of the six dispatch groups. -/
def actionVocab : List String :=
  ["create_substrate", "create_patch", "create_dipole", "model",
   "assign_excitation", "assign_port",
   "assign_boundary", "assign_perfect_e",
   "create_setup", "analysis_setup",
   "analyze", "solve",
   "export_report", "postprocess"]

/-- A dict task whose `action` lies outside the closed vocabulary. -/
def taskActionUnknown (t : PyVal) : Bool :=
  match t with
  | PyVal.vdict fs => !(dictGet fs "action").inStrs actionVocab
  | _ => false

/-- A task that the orchestrator's enrichment step can process without
raising: a dict whose `params`, if its action belongs to one of the two
merge groups and a `params` key is present, is itself a dict. -/
def Agent.taskGood (t : PyVal) : Bool :=
  match t with
  | PyVal.vdict fs =>
    (!(dictGet fs "action").inStrs
        ["create_geometry", "model", "setup_analysis", "analysis_setup"])
    || (match fs.find? (fun p => p.1 == "params") with
        | none => true
        | some p => p.2.isDict)
  | _ => false

/-- Specification predicate for the raw LLM text: some opening brace is
followed (anywhere later) by a closing brace.  Stated independently of the
index arithmetic used by `extract_json`. -/
def hasPairB : List Char → Bool
  | [] => false
  | c :: t => (c == '\x7b' && t.contains '\x7d') || hasPairB t

/-- A unit word of the frequency pattern - one of `ghz`, `mhz`, `khz`,
`hz` with each letter in either case (the ASCII reading of the pattern's
`re.IGNORECASE`) - together with its hertz conversion factor. -/
inductive UnitTok : List Char → ℚ → Prop
  | ghz (c1 c2 c3 : Char) : c1 = 'g' ∨ c1 = 'G' → c2 = 'h' ∨ c2 = 'H' → c3 = 'z' ∨ c3 = 'Z' →
      UnitTok [c1, c2, c3] 1000000000
  | mhz (c1 c2 c3 : Char) : c1 = 'm' ∨ c1 = 'M' → c2 = 'h' ∨ c2 = 'H' → c3 = 'z' ∨ c3 = 'Z' →
      UnitTok [c1, c2, c3] 1000000
  | khz (c1 c2 c3 : Char) : c1 = 'k' ∨ c1 = 'K' → c2 = 'h' ∨ c2 = 'H' → c3 = 'z' ∨ c3 = 'Z' →
      UnitTok [c1, c2, c3] 1000
  | hz (c1 c2 : Char) : c1 = 'h' ∨ c1 = 'H' → c2 = 'z' ∨ c2 = 'Z' →
      UnitTok [c1, c2] 1

/-- Concrete LLM output used to exercise the patch-antenna path. -/
def c10Parsed : PyVal := PyVal.vdict
  [("antenna_type", PyVal.vstr "patch"),
   ("frequencies_hz", PyVal.vlist [PyVal.vnum 2400000000]),
   ("tasks", PyVal.vlist [PyVal.vdict [("id", PyVal.vnum 1), ("action", PyVal.vstr "create_patch")]])]

/-- The manager `run_design` constructs for a mock run. -/
def c10Mgr : HFSSManager :=
  { project_name := "NeuroRF_project", non_graphical := true, use_pyaedt := false }

/-- The antenna entry produced by `run_design "req" c10Parsed false`. -/
noncomputable def c10Entry : AntennaEntry :=
  { type := "PatchAntenna"
    params := (PatchAntenna.init 2400000000 none).design_params
    built := c10Mgr.build_dipole (PatchAntenna.init 2400000000 none).design_params
    task_execution :=
      { status := "ok"
        log := [{ id := PyVal.vnum 1, action := PyVal.vstr "create_patch"
                  result := TaskOutcome.geometryCreated (PyVal.vdict []) }] }
    simulation :=
      { status := "mock", resonant_freq_hz := 2400000000
        input_impedance_ohm := 73, gain_dbi := 2.15 } }

/-- The response of `run_design "req" c10Parsed false`. -/
noncomputable def c10Result : RunResult :=
  { request := "req", spec_from_llm := c10Parsed, antennas := [c10Entry] }

/-- A dict whose `key` entry, if present, holds a dict value - the shape
`setdefault(key, {}).update(...)` can handle without raising. -/
def paramsDictOk (fs : List (String × PyVal)) (key : String) : Bool :=
  match fs.find? (fun p => p.1 == key) with
  | none => true
  | some p => p.2.isDict

/-- A task whose single action is `analyze` - a well-formed minimal
workflow. -/
def c5Task : PyVal := PyVal.vdict [("id", PyVal.vnum 1), ("action", PyVal.vstr "analyze")]

def c5Parsed : PyVal := PyVal.vdict [("tasks", PyVal.vlist [c5Task])]

def c5bFields : List (String × PyVal) :=
  [("antenna_type", PyVal.vstr "dipole"),
   ("frequencies_hz", PyVal.vlist [PyVal.vnum 2400000000]),
   ("tasks", PyVal.vlist [c5Task])]

/-! ## Theorems -/

/-! ### C2 - design-parameter formulas -/

/-- C2: for every frequency `f > 0`, a `Dipole` built at `f` with
correction `k` (default `0.95`) has `wavelength_m = c/f`,
`length_m = (c/f)/2 * k` and `radius_m = (c/f) * 0.005`; a `PatchAntenna`
built at `f` with dielectric constant `e` (default `4.4`) has
`width_m = (c/(2f)) * sqrt(2/(1+e))` and `length_m = width_m * 0.95`; and
`design_params` evaluated twice on the same instance yields identical
values. -/
theorem design_params_formulas (f k e : ℚ) (hf : 0 < f) :
    (Dipole.init f (some k)).design_params =
      AntParams.dipole f (physics.c / (f : ℝ)) (physics.c / (f : ℝ) / 2 * (k : ℝ))
        (physics.c / (f : ℝ) * 0.005) k ∧
    (Dipole.init f none).design_params =
      AntParams.dipole f (physics.c / (f : ℝ)) (physics.c / (f : ℝ) / 2 * ((0.95 : ℚ) : ℝ))
        (physics.c / (f : ℝ) * 0.005) 0.95 ∧
    (PatchAntenna.init f (some e)).design_params =
      AntParams.patch f e (physics.c / (2 * (f : ℝ)) * Real.sqrt (2 / (1 + (e : ℝ))))
        (physics.c / (2 * (f : ℝ)) * Real.sqrt (2 / (1 + (e : ℝ))) * 0.95) ∧
    (PatchAntenna.init f none).design_params =
      AntParams.patch f 4.4 (physics.c / (2 * (f : ℝ)) * Real.sqrt (2 / (1 + ((4.4 : ℚ) : ℝ))))
        (physics.c / (2 * (f : ℝ)) * Real.sqrt (2 / (1 + ((4.4 : ℚ) : ℝ))) * 0.95) ∧
    (Dipole.init f (some k)).design_params = (Dipole.init f (some k)).design_params ∧
    (PatchAntenna.init f (some e)).design_params = (PatchAntenna.init f (some e)).design_params :=
  ⟨rfl, rfl, rfl, rfl, rfl, rfl⟩

/-- C2 witness at `f = 2.4e9`, `k = 0.95`, `e = 4.4`. -/
theorem design_params_formulas_witness :
    (Dipole.init 2400000000 (some 0.95)).design_params =
      AntParams.dipole 2400000000 (physics.c / ((2400000000 : ℚ) : ℝ))
        (physics.c / ((2400000000 : ℚ) : ℝ) / 2 * ((0.95 : ℚ) : ℝ))
        (physics.c / ((2400000000 : ℚ) : ℝ) * 0.005) 0.95 :=
  (design_params_formulas 2400000000 0.95 4.4 (by norm_num)).1

/-! ### C3 - no construction-time frequency validation (claim corrected) -/

/-- C3 counterexample: at the non-positive frequencies `0` and `-1`,
construction of a `Dipole` and of a `PatchAntenna` succeeds and produces
an instance (no domain error is raised), contradicting the claim that
construction fails for `frequency_hz <= 0`. -/
theorem construction_accepts_nonpositive_frequency :
    Dipole.tryInit 0 none = Except.ok { frequency_hz := 0, correction := 0.95 } ∧
    PatchAntenna.tryInit (-1) none = Except.ok { frequency_hz := -1, eps_r := 4.4 } :=
  ⟨rfl, rfl⟩

/-- C3 amended: for every `frequency_hz <= 0`, constructing a `Dipole` or
a `PatchAntenna` does **not** raise: both `__init__` bodies are plain
attribute assignments with no validation, so an instance carrying exactly
the given frequency is produced. -/
theorem construction_never_fails (f : ℚ) (hf : f ≤ 0) (k e : Option ℚ) :
    Dipole.tryInit f k = Except.ok (Dipole.init f k) ∧
    PatchAntenna.tryInit f e = Except.ok (PatchAntenna.init f e) ∧
    (Dipole.init f k).frequency_hz = f ∧
    (PatchAntenna.init f e).frequency_hz = f :=
  ⟨rfl, rfl, rfl, rfl⟩

/-- C3 amended witness at `f = 0`. -/
theorem construction_never_fails_witness :
    Dipole.tryInit 0 none = Except.ok (Dipole.init 0 none) ∧
    PatchAntenna.tryInit 0 none = Except.ok (PatchAntenna.init 0 none) ∧
    (Dipole.init 0 none).frequency_hz = 0 ∧
    (PatchAntenna.init 0 none).frequency_hz = 0 :=
  construction_never_fails 0 (by norm_num) none none

/-! ### C1 - apply_tasks status and log discipline -/

/-- Processing a dict task always succeeds (the `try` body cannot raise on
a dict). -/
theorem processTask_dict_ok (fs : List (String × PyVal)) :
    ∃ e, processTask (PyVal.vdict fs) = Except.ok e := by
  exact ⟨_, rfl⟩

/-- A list of dict tasks is processed completely; the log has one entry
per task, and the entries are obtained by `processTask` in order. -/
theorem processTasks_ok (ts : List PyVal) (h : ∀ t ∈ ts, t.isDict = true) :
    ∃ log, processTasks ts = Except.ok log ∧ log.length = ts.length ∧
      List.Forall₂ (fun t e => processTask t = Except.ok e) ts log := by
  induction ts with
  | nil => exact ⟨[], rfl, rfl, List.Forall₂.nil⟩
  | cons t rest ih =>
    obtain ⟨log, hlog, hlen, hrel⟩ := ih (fun x hx => h x (List.mem_cons_of_mem _ hx))
    have ht : t.isDict = true := h t (List.mem_cons_self _ _)
    obtain ⟨fs, rfl⟩ : ∃ fs, t = PyVal.vdict fs := by
      cases t <;> simp [PyVal.isDict] at ht ⊢
    obtain ⟨e, he⟩ := processTask_dict_ok fs
    refine ⟨e :: log, ?_, by simp [hlen], List.Forall₂.cons he hrel⟩
    simp only [processTasks, he, hlog]
    rfl

/-- Every element of the right list of a `Forall₂` is related to some
element of the left list. -/
theorem forall2_mem_right {α β : Type _} {R : α → β → Prop} :
    ∀ {l1 : List α} {l2 : List β}, List.Forall₂ R l1 l2 → ∀ e ∈ l2, ∃ t ∈ l1, R t e := by
  intro l1 l2 h
  induction h with
  | nil => simp
  | cons hR _ ih =>
    intro e he
    rcases List.mem_cons.mp he with rfl | hm
    · exact ⟨_, List.mem_cons_self _ _, hR⟩
    · obtain ⟨t, ht, hte⟩ := ih e hm
      exact ⟨t, List.mem_cons_of_mem _ ht, hte⟩

/-- A returned `apply_tasks` result always carries `status = "ok"` (the
`status = "error"` assignment is only reachable in the handler that
re-raises). -/
theorem apply_tasks_status (m : HFSSManager) (ts : List PyVal) (r : TaskExecResult)
    (h : m.apply_tasks ts = Except.ok r) : r.status = "ok" := by
  unfold HFSSManager.apply_tasks at h
  cases hp : processTasks ts with
  | error e => rw [hp] at h; simp [Except.bind] at h
  | ok log =>
    rw [hp] at h
    simp only [Except.bind, Except.pure, pure] at h
    cases h
    rfl

/-- A dict task with an action outside the closed vocabulary produces the
"unknown action" record. -/
theorem processTask_unknown (fs : List (String × PyVal))
    (h : (dictGet fs "action").inStrs actionVocab = false) :
    processTask (PyVal.vdict fs) =
      Except.ok { id := dictGet fs "id", action := dictGet fs "action"
                  result := TaskOutcome.unknownAction (dictGet fs "action") } := by
  cases ha : dictGet fs "action" with
  | vstr s =>
    rw [ha] at h
    simp only [PyVal.inStrs, actionVocab] at h
    simp only [processTask, ha, PyVal.inStrs]
    simp only [List.contains_cons, List.contains_nil, Bool.or_eq_false_iff] at h ⊢
    simp_all
  | vnone => simp [processTask, ha, PyVal.inStrs]
  | vnum q => simp [processTask, ha, PyVal.inStrs]
  | vlist xs => simp [processTask, ha, PyVal.inStrs]
  | vdict fs2 => simp [processTask, ha, PyVal.inStrs]
  | vparams p => simp [processTask, ha, PyVal.inStrs]

/-- C1: for every list of dict tasks, `apply_tasks` never raises and
returns one log record per task with terminal status `"ok"`; the status is
`"error"` iff some task raised, which never happens for dict tasks; the
empty list gives `status = "ok"` with an empty log; and a list of tasks
whose actions are all outside the closed vocabulary gives `status = "ok"`
with one "unknown action" record per task. -/
theorem apply_tasks_status_and_log (m : HFSSManager) (ts : List PyVal)
    (h : ∀ t ∈ ts, t.isDict = true) :
    (∃ log, m.apply_tasks ts = Except.ok { status := "ok", log := log } ∧
      log.length = ts.length) ∧
    m.apply_tasks [] = Except.ok { status := "ok", log := [] } ∧
    (∀ r, m.apply_tasks ts = Except.ok r → (r.status = "error" ↔ False)) ∧
    ((∀ t ∈ ts, taskActionUnknown t = true) →
      ∃ log, m.apply_tasks ts = Except.ok { status := "ok", log := log } ∧
        log.length = ts.length ∧
        ∀ e ∈ log, ∃ a, e.result = TaskOutcome.unknownAction a) := by
  obtain ⟨log, hlog, hlen, hrel⟩ := processTasks_ok ts h
  refine ⟨⟨log, ?_, hlen⟩, rfl, ?_, ?_⟩
  · simp [HFSSManager.apply_tasks, hlog]
  · intro r hr
    have := apply_tasks_status m ts r hr
    simp [this]
  · intro hu
    refine ⟨log, ?_, hlen, ?_⟩
    · simp [HFSSManager.apply_tasks, hlog]
    · intro e he
      obtain ⟨t, ht, hte⟩ := forall2_mem_right hrel e he
      have htd : t.isDict = true := h t ht
      obtain ⟨fs, rfl⟩ : ∃ fs, t = PyVal.vdict fs := by
        cases t <;> simp [PyVal.isDict] at htd ⊢
      have hun : taskActionUnknown (PyVal.vdict fs) = true := hu _ ht
      simp only [taskActionUnknown, Bool.not_eq_true'] at hun
      rw [processTask_unknown fs hun] at hte
      cases hte
      exact ⟨_, rfl⟩

/-- C1 witness: a singleton list with an out-of-vocabulary action. -/
theorem apply_tasks_status_and_log_witness :
    (∃ log,
      HFSSManager.apply_tasks { project_name := "p", non_graphical := true, use_pyaedt := false }
        [PyVal.vdict [("id", PyVal.vnum 1), ("action", PyVal.vstr "fly_to_moon")]] =
        Except.ok { status := "ok", log := log } ∧ log.length = 1) ∧
    HFSSManager.apply_tasks { project_name := "p", non_graphical := true, use_pyaedt := false }
      [] = Except.ok { status := "ok", log := [] } ∧
    (∀ r, HFSSManager.apply_tasks { project_name := "p", non_graphical := true, use_pyaedt := false }
        [PyVal.vdict [("id", PyVal.vnum 1), ("action", PyVal.vstr "fly_to_moon")]] =
        Except.ok r → (r.status = "error" ↔ False)) ∧
    ((∀ t ∈ [PyVal.vdict [("id", PyVal.vnum 1), ("action", PyVal.vstr "fly_to_moon")]],
        taskActionUnknown t = true) →
      ∃ log,
        HFSSManager.apply_tasks { project_name := "p", non_graphical := true, use_pyaedt := false }
          [PyVal.vdict [("id", PyVal.vnum 1), ("action", PyVal.vstr "fly_to_moon")]] =
          Except.ok { status := "ok", log := log } ∧ log.length = 1 ∧
        ∀ e ∈ log, ∃ a, e.result = TaskOutcome.unknownAction a) :=
  apply_tasks_status_and_log _ _ (by decide)

/-! ### C4 - missing or empty task list (claim corrected) -/

/-- `run_design` on a dict LLM output equals the normalization body
applied to the six field lookups (the `.get` calls succeed on dicts). -/
theorem run_design_eq (req : String) (pfs : List (String × PyVal)) (use : Bool) :
    Agent.run_design req (PyVal.vdict pfs) use =
      Agent.normalizeAndRun req (PyVal.vdict pfs) use
        (dictGet pfs "antenna_type") (Parser.antennaTypeHint (pyStrip req))
        (dictGet pfs "frequencies_hz")
        (PyVal.vlist ((Parser.extract_frequencies (pyStrip req)).map PyVal.vnum))
        (dictGet pfs "tasks") (dictGet pfs "frequency_hz") := rfl

/-- C4 counterexample: for a generative result with no task sequence at
all (`{}`), `run_design` raises the `ValueError` instead of substituting
a fallback workflow and returning a response. -/
theorem run_design_missing_tasks_example :
    Agent.run_design "x" (PyVal.vdict []) false = Except.error Agent.tasksErrorMsg := rfl

/-- C4 amended: for every generative result whose `tasks` field is
missing, not a list, or an empty list, `run_design` raises
`ValueError("LLM output must include a non-empty tasks array ...")` and
returns no response; no fallback workflow is substituted. -/
theorem run_design_missing_tasks_raises (req : String) (pfs : List (String × PyVal))
    (use : Bool) (h : ∀ ts, dictGet pfs "tasks" = PyVal.vlist ts → ts = []) :
    Agent.run_design req (PyVal.vdict pfs) use = Except.error Agent.tasksErrorMsg := by
  rw [run_design_eq]
  cases hts : dictGet pfs "tasks" with
  | vlist ts =>
    have hempty := h ts hts
    subst hempty
    simp [Agent.normalizeAndRun, Except.bind, Bind.bind]
  | vnone => simp [Agent.normalizeAndRun, Except.bind, Bind.bind]
  | vnum q => simp [Agent.normalizeAndRun, Except.bind, Bind.bind]
  | vstr s => simp [Agent.normalizeAndRun, Except.bind, Bind.bind]
  | vdict fs => simp [Agent.normalizeAndRun, Except.bind, Bind.bind]
  | vparams p => simp [Agent.normalizeAndRun, Except.bind, Bind.bind]

/-- C4 amended witness: an LLM output carrying an empty `tasks` list. -/
theorem run_design_missing_tasks_raises_witness :
    Agent.run_design "design me an antenna" (PyVal.vdict [("tasks", PyVal.vlist [])]) true =
      Except.error Agent.tasksErrorMsg :=
  run_design_missing_tasks_raises "design me an antenna" [("tasks", PyVal.vlist [])] true
    (by intro ts hts; simp [dictGet] at hts; exact hts)

/-! ### C8 - session log is never appended to (claim corrected) -/

/-- C8 counterexample: on a freshly entered mock session, one
`add_dipole` capability call returns a descriptor but the session log
still has 0 records, not 1. -/
theorem session_log_not_appended_example :
    (((PyAedtSession.init none false (some false) false).enter true).add_dipole
        (PyVal.vdict []) true).2.log.length = 0 ∧
    ((PyAedtSession.init none false (some false) false).enter true).mock = true ∧
    ¬((((PyAedtSession.init none false (some false) false).enter true).add_dipole
        (PyVal.vdict []) true).2.log.length = 1) := by
  refine ⟨rfl, rfl, ?_⟩
  intro h
  simp [PyAedtSession.init, PyAedtSession.enter, PyAedtSession.add_dipole] at h

/-- C8 amended: in mock mode every capability call (`add_dipole`,
`add_patch`, `assign_port`) returns its small descriptor object but
appends nothing to the session log: the log after any sequence of the
three calls is exactly the log before, so after `n` capability calls on a
fresh session the log still has 0 records. -/
theorem session_calls_leave_log (s : PyAedtSession) (p target q : PyVal)
    (drawOk : Bool) (h : s.mock = true) :
    (s.add_dipole p drawOk).1 =
      PyVal.vdict [("name", PyVal.vstr "dipole_mock"), ("status", PyVal.vstr "mocked")] ∧
    (s.add_dipole p drawOk).2.log = s.log ∧
    (s.add_patch p drawOk).1 =
      PyVal.vdict [("name", PyVal.vstr "patch_mock"), ("status", PyVal.vstr "mocked")] ∧
    (s.add_patch p drawOk).2.log = s.log ∧
    (s.assign_port target q).1 = PyVal.vdict [("status", PyVal.vstr "done")] ∧
    (s.assign_port target q).2.log = s.log ∧
    (((s.add_dipole p drawOk).2.add_patch p drawOk).2.assign_port target q).2.log = s.log := by
  simp [PyAedtSession.add_dipole, PyAedtSession.add_patch, PyAedtSession.assign_port, h]

/-- C8 amended witness: a fresh mock session with empty log. -/
theorem session_calls_leave_log_witness :
    ((((PyAedtSession.init none false (some false) false).enter true).add_dipole
        (PyVal.vdict []) true).1 =
      PyVal.vdict [("name", PyVal.vstr "dipole_mock"), ("status", PyVal.vstr "mocked")]) ∧
    ((((PyAedtSession.init none false (some false) false).enter true).add_dipole
        (PyVal.vdict []) true).2.log = ((PyAedtSession.init none false (some false) false).enter true).log) := by
  have h := session_calls_leave_log ((PyAedtSession.init none false (some false) false).enter true)
    (PyVal.vdict []) PyVal.vnone PyVal.vnone true rfl
  exact ⟨h.1, h.2.1⟩

/-! ### C9 - additive params merge (claim corrected) -/

/-- After `d[k] = v`, looking up `k` yields `v`. -/
theorem dictGet_dictSet_self (fs : List (String × PyVal)) (k : String) (v : PyVal) :
    dictGet (dictSet fs k v) k = v := by
  induction fs with
  | nil => simp [dictSet, dictGet]
  | cons p t ih =>
    obtain ⟨k', v'⟩ := p
    by_cases h : k' = k
    · simp [dictSet, dictGet, h]
    · simp only [dictSet, beq_iff_eq, if_neg h]
      simpa [dictGet, h] using ih

/-- `d[k] = v` leaves every other key unchanged. -/
theorem dictGet_dictSet_ne (fs : List (String × PyVal)) (k k' : String) (v : PyVal)
    (h : k' ≠ k) : dictGet (dictSet fs k v) k' = dictGet fs k' := by
  have hkk : (k == k') = false := by
    simp only [beq_eq_false_iff_ne]
    exact fun hh => h hh.symm
  induction fs with
  | nil => simp [dictSet, dictGet, hkk]
  | cons p t ih =>
    obtain ⟨a, b⟩ := p
    by_cases ha : a = k
    · rw [show dictSet ((a, b) :: t) k v = (k, v) :: t by simp [dictSet, ha]]
      have h2 : (a == k') = false := by
        simp only [beq_eq_false_iff_ne]
        rw [ha]
        exact fun hh => h hh.symm
      simp [dictGet, hkk, h2]
    · rw [show dictSet ((a, b) :: t) k v = (a, b) :: dictSet t k v by simp [dictSet, ha]]
      by_cases hb : a = k'
      · simp [dictGet, hb]
      · have h3 : (a == k') = false := by simp [hb]
        simp only [dictGet] at ih ⊢
        simp [h3, ih]

/-- `update` with a single pair is one `dictSet`. -/
theorem dictUpdate_single (fs : List (String × PyVal)) (k : String) (v : PyVal) :
    dictUpdate fs [(k, v)] = dictSet fs k v := rfl

/-- Lookup distributes over dict concatenation (used for `setdefault`'s
append-at-end insertion). -/
theorem dictGet_append (fs gs : List (String × PyVal)) (k : String) :
    dictGet (fs ++ gs) k =
      match fs.find? (fun p => p.1 == k) with
      | some p => p.2
      | none => dictGet gs k := by
  simp only [dictGet, List.find?_append]
  cases fs.find? (fun p => p.1 == k) <;> simp [Option.or]

/-- C9 counterexample: a `model` task whose params already contain a
`"geometry"` entry has that entry **overwritten** by the merge (the value
`7` is replaced by the derived geometry payload), so the merge is not
additive on existing keys. -/
theorem enrich_task_overwrites_geometry :
    Agent.enrich_task (PyVal.vparams (Dipole.init 1 none).design_params) (PyVal.vlist [])
        (PyVal.vdict [("action", PyVal.vstr "model"),
                      ("params", PyVal.vdict [("geometry", PyVal.vnum 7), ("x", PyVal.vnum 5)])]) =
      Except.ok (PyVal.vdict [("action", PyVal.vstr "model"),
        ("params", PyVal.vdict
          [("geometry", PyVal.vparams (Dipole.init 1 none).design_params),
           ("x", PyVal.vnum 5)])]) ∧
    PyVal.vparams (Dipole.init 1 none).design_params ≠ PyVal.vnum 7 := by
  constructor
  · rfl
  · intro h
    cases h

/-- A value that passes one of the `in`-tuple membership tests is a
string contained in the tuple. -/

theorem inStrs_vstr (v : PyVal) (names : List String) (h : v.inStrs names = true) :
    ∃ s, v = PyVal.vstr s ∧ names.contains s = true := by
  cases v <;> simp [PyVal.inStrs] at h ⊢
  exact h

/-- The two merge groups are disjoint. -/
theorem geo_not_setup (v : PyVal) (h : v.inStrs ["create_geometry", "model"] = true) :
    v.inStrs ["setup_analysis", "analysis_setup"] = false := by
  obtain ⟨s, rfl, hs⟩ := inStrs_vstr v _ h
  simp [PyVal.inStrs] at hs ⊢
  rcases hs with rfl | rfl <;> decide

/-- The two merge groups are disjoint (other direction). -/
theorem setup_not_geo (v : PyVal) (h : v.inStrs ["setup_analysis", "analysis_setup"] = true) :
    v.inStrs ["create_geometry", "model"] = false := by
  obtain ⟨s, rfl, hs⟩ := inStrs_vstr v _ h
  simp [PyVal.inStrs] at hs ⊢
  rcases hs with rfl | rfl <;> decide

/-- Failing the union membership test fails both group tests. -/
theorem inStrs_union_false (v : PyVal)
    (h : v.inStrs ["create_geometry", "model", "setup_analysis", "analysis_setup"] = false) :
    v.inStrs ["create_geometry", "model"] = false ∧
    v.inStrs ["setup_analysis", "analysis_setup"] = false := by
  cases v <;> simp [PyVal.inStrs] at h ⊢
  tauto

/-- A key present in the left dict is unaffected by appending entries. -/
theorem dictGet_append_of_ne_none (fs gs : List (String × PyVal)) (k : String)
    (h : dictGet fs k ≠ PyVal.vnone) : dictGet (fs ++ gs) k = dictGet fs k := by
  rw [dictGet_append]
  cases hf : fs.find? (fun p => p.1 == k) with
  | none => exact absurd (by simp [dictGet, hf]) h
  | some q => simp [dictGet, hf]

/-- Inserting into the empty dict. -/
theorem dictSet_nil (k : String) (v : PyVal) : dictSet [] k v = [(k, v)] := rfl

/-- C9 amended: the orchestrator's merge of derived geometry/frequency
data into a task's params is additive **except on the merged key itself**:
tasks with actions outside `create_geometry`/`model`/`setup_analysis`/
`analysis_setup` pass through with params unchanged; for merged tasks,
every params entry with a key other than the merged key
(`"geometry"` resp. `"frequency_hz_list"`) keeps its value and position,
a missing params dict is created, and the merged key is set to the
derived payload - overwriting any existing value under that key. -/
theorem enrich_task_merge (g fr : PyVal) (fs : List (String × PyVal)) :
    ((dictGet fs "action").inStrs
        ["create_geometry", "model", "setup_analysis", "analysis_setup"] = false →
      Agent.enrich_task g fr (PyVal.vdict fs) = Except.ok (PyVal.vdict fs)) ∧
    ((dictGet fs "action").inStrs ["create_geometry", "model"] = true →
      fs.find? (fun p => p.1 == "params") = none →
      Agent.enrich_task g fr (PyVal.vdict fs) =
        Except.ok (PyVal.vdict (fs ++ [("params", PyVal.vdict [("geometry", g)])]))) ∧
    (∀ ps, (dictGet fs "action").inStrs ["create_geometry", "model"] = true →
      fs.find? (fun p => p.1 == "params") = some ("params", PyVal.vdict ps) →
      Agent.enrich_task g fr (PyVal.vdict fs) =
        Except.ok (PyVal.vdict (dictSet fs "params" (PyVal.vdict (dictSet ps "geometry" g)))) ∧
      dictGet (dictSet ps "geometry" g) "geometry" = g ∧
      ∀ k, k ≠ "geometry" → dictGet (dictSet ps "geometry" g) k = dictGet ps k) ∧
    (∀ ps, (dictGet fs "action").inStrs ["setup_analysis", "analysis_setup"] = true →
      fs.find? (fun p => p.1 == "params") = some ("params", PyVal.vdict ps) →
      Agent.enrich_task g fr (PyVal.vdict fs) =
        Except.ok (PyVal.vdict
          (dictSet fs "params" (PyVal.vdict (dictSet ps "frequency_hz_list" fr)))) ∧
      dictGet (dictSet ps "frequency_hz_list" fr) "frequency_hz_list" = fr ∧
      ∀ k, k ≠ "frequency_hz_list" →
        dictGet (dictSet ps "frequency_hz_list" fr) k = dictGet ps k) := by
  refine ⟨?_, ?_, ?_, ?_⟩
  · intro h
    obtain ⟨h1, h2⟩ := inStrs_union_false _ h
    simp [Agent.enrich_task, PyVal.toDict, h1, h2, Except.bind, Bind.bind, pure, Except.pure]
  · intro hgeo hfind
    obtain ⟨s, hs, _⟩ := inStrs_vstr _ _ hgeo
    have hset := geo_not_setup _ hgeo
    have hact : dictGet (fs ++ [("params", PyVal.vdict [("geometry", g)])]) "action" =
        dictGet fs "action" :=
      dictGet_append_of_ne_none _ _ _ (by rw [hs]; intro hh; cases hh)
    simp [Agent.enrich_task, PyVal.toDict, hgeo, Agent.setdefaultUpdate, hfind,
      dictUpdate_single, dictSet_nil, hact, hset, Except.bind, Bind.bind, pure, Except.pure]
  · intro ps hgeo hfind
    obtain ⟨s, hs, _⟩ := inStrs_vstr _ _ hgeo
    have hset := geo_not_setup _ hgeo
    have hact : dictGet (dictSet fs "params" (PyVal.vdict (dictSet ps "geometry" g))) "action" =
        dictGet fs "action" :=
      dictGet_dictSet_ne _ _ _ _ (by decide)
    refine ⟨?_, dictGet_dictSet_self _ _ _, fun k hk => dictGet_dictSet_ne _ _ _ _ hk⟩
    simp [Agent.enrich_task, PyVal.toDict, hgeo, Agent.setdefaultUpdate, hfind,
      dictUpdate_single, dictSet_nil, hact, hset, Except.bind, Bind.bind, pure, Except.pure]
  · intro ps hsetup hfind
    obtain ⟨s, hs, _⟩ := inStrs_vstr _ _ hsetup
    have hgeo := setup_not_geo _ hsetup
    refine ⟨?_, dictGet_dictSet_self _ _ _, fun k hk => dictGet_dictSet_ne _ _ _ _ hk⟩
    simp [Agent.enrich_task, PyVal.toDict, hgeo, hsetup, Agent.setdefaultUpdate, hfind,
      dictUpdate_single, dictSet_nil, Except.bind, Bind.bind, pure, Except.pure]

/-- C9 amended witness: a `model` task with params `{"len": 3}` gains the
`"geometry"` key and keeps `"len"` unchanged. -/
theorem enrich_task_merge_witness :
    Agent.enrich_task (PyVal.vstr "GEO") (PyVal.vnum 1)
        (PyVal.vdict [("action", PyVal.vstr "model"),
                      ("params", PyVal.vdict [("len", PyVal.vnum 3)])]) =
      Except.ok (PyVal.vdict
        (dictSet [("action", PyVal.vstr "model"), ("params", PyVal.vdict [("len", PyVal.vnum 3)])]
          "params" (PyVal.vdict (dictSet [("len", PyVal.vnum 3)] "geometry" (PyVal.vstr "GEO"))))) ∧
    dictGet (dictSet [("len", PyVal.vnum 3)] "geometry" (PyVal.vstr "GEO")) "geometry" =
      PyVal.vstr "GEO" ∧
    ∀ k, k ≠ "geometry" →
      dictGet (dictSet [("len", PyVal.vnum 3)] "geometry" (PyVal.vstr "GEO")) k =
        dictGet [("len", PyVal.vnum 3)] k :=
  (enrich_task_merge (PyVal.vstr "GEO") (PyVal.vnum 1)
      [("action", PyVal.vstr "model"), ("params", PyVal.vdict [("len", PyVal.vnum 3)])]).2.2.1
    [("len", PyVal.vnum 3)] rfl rfl

/-- `rfind` misses when the character does not occur. -/
theorem lastIdxOf_none_of_not_contains (c : Char) (t : List Char)
    (h : t.contains c = false) : lastIdxOf c t = none := by
  induction t with
  | nil => rfl
  | cons x r ih =>
    simp only [List.contains_cons, Bool.or_eq_false_iff] at h
    have hxc : (x == c) = false := by
      simp only [beq_eq_false_iff_ne] at h ⊢
      exact fun hh => h.1 hh.symm
    simp [lastIdxOf, ih h.2, hxc]

/-- When no opening brace is followed by a closing brace, the last
closing brace (if any) sits at or before the first opening brace. -/
theorem no_pair_le (cs : List Char) (h : hasPairB cs = false) :
    ∀ a b, firstIdxOf '\x7b' cs = some a → lastIdxOf '\x7d' cs = some b → b ≤ a := by
  induction cs with
  | nil => intro a b ha; cases ha
  | cons x t ih =>
    simp only [hasPairB, Bool.or_eq_false_iff, Bool.and_eq_false_iff] at h
    intro a b ha hb
    by_cases hx : x = '\x7b'
    · have hxc : (x == '\x7b') = true := by simp [hx]
      have hco : t.contains '\x7d' = false := by
        rcases h.1 with h1 | h1
        · rw [hxc] at h1; cases h1
        · exact h1
      have hxd : (x == '\x7d') = false := by subst hx; decide
      have hlast : lastIdxOf '\x7d' (x :: t) = none := by
        simp [lastIdxOf, lastIdxOf_none_of_not_contains _ _ hco, hxd]
      rw [hlast] at hb; cases hb
    · have hxb : (x == '\x7b') = false := by simp [hx]
      simp only [firstIdxOf, hxb, Bool.false_eq_true, if_false] at ha
      cases hfa : firstIdxOf '\x7b' t with
      | none => rw [hfa] at ha; cases ha
      | some a' =>
        rw [hfa] at ha
        simp only [Option.map_some'] at ha
        cases hlb : lastIdxOf '\x7d' t with
        | none =>
          simp only [lastIdxOf, hlb] at hb
          cases hbb : (x == '\x7d') with
          | false => rw [hbb] at hb; simp at hb
          | true =>
            rw [hbb] at hb
            simp only [if_true] at hb
            cases hb
            omega
        | some b' =>
          simp only [lastIdxOf, hlb] at hb
          cases hb
          have := ih h.2 a' b' hfa hlb
          cases ha
          omega

/-- Both the regex branch and the `find`/`rfind` fallback fail on a text
without a brace pair, so `_extract_json` raises. -/
theorem extract_json_no_pair (cs : List Char) (h : hasPairB cs = false) :
    LLMClient.extract_json cs = Except.error LLMClient.noJsonMsg := by
  unfold LLMClient.extract_json LLMClient.regexSearchBraces
  cases hfa : firstIdxOf '\x7b' cs with
  | none => simp
  | some a =>
    cases hlb : lastIdxOf '\x7d' cs with
    | none => simp
    | some b =>
      have hle : b ≤ a := no_pair_le cs h a b hfa hlb
      have : ¬ a < b := by omega
      simp [this]

/-- C6 amended: extraction from `"some prose \x7b\"a\":1\x7d trailing"`
yields the object span; extraction returns the substring from the first
opening brace to the last closing brace whenever such a pair exists; and
on text with no opening-then-closing brace pair, `generate_json` raises
`ValueError("No JSON object found in LLM output")` - a fixed message that
does **not** include the raw text (the raw text appears only in the later
JSON-decode-failure error). -/
theorem extract_json_brace_span :
    (LLMClient.extract_json "some prose \x7b\"a\":1\x7d trailing".toList =
      Except.ok "\x7b\"a\":1\x7d".toList) ∧
    (∀ cs, hasPairB cs = false →
      LLMClient.extract_json cs = Except.error LLMClient.noJsonMsg) ∧
    (∀ (raw : String) (loads : String → Except String PyVal), hasPairB raw.toList = false →
      LLMClient.generate_json_from raw loads = Except.error LLMClient.noJsonMsg) ∧
    (∀ cs a b, firstIdxOf '\x7b' cs = some a → lastIdxOf '\x7d' cs = some b → a < b →
      LLMClient.extract_json cs = Except.ok (sliceIncl cs a b)) := by
  refine ⟨rfl, extract_json_no_pair, ?_, ?_⟩
  · intro raw loads h
    unfold LLMClient.generate_json_from
    rw [extract_json_no_pair _ h]
  · intro cs a b ha hb hab
    unfold LLMClient.extract_json LLMClient.regexSearchBraces
    simp [ha, hb, hab]

/-- C6 counterexample: for the raw response `"hello world"` (no brace
pair), `generate_json` raises, but the error message is the fixed string
`"No JSON object found in LLM output"`, which does not contain the raw
text - contradicting "an error that includes the raw text for
diagnosis". -/
theorem generate_json_error_lacks_raw_text :
    LLMClient.generate_json_from "hello world" (fun s => Except.ok (PyVal.vstr s)) =
      Except.error "No JSON object found in LLM output" ∧
    ¬ ("hello world".toList <:+: "No JSON object found in LLM output".toList) := by
  constructor
  · rfl
  · decide

/-- C6 amended witness: concrete texts with and without a brace pair. -/
theorem extract_json_brace_span_witness :
    LLMClient.extract_json "no braces at all".toList = Except.error LLMClient.noJsonMsg ∧
    LLMClient.generate_json_from "no braces at all" (fun s => Except.ok (PyVal.vstr s)) =
      Except.error LLMClient.noJsonMsg ∧
    LLMClient.extract_json "pre \x7bjson\x7d post".toList =
      Except.ok (sliceIncl "pre \x7bjson\x7d post".toList 4 9) :=
  ⟨extract_json_brace_span.2.1 _ (by decide),
   extract_json_brace_span.2.2.1 _ _ (by decide),
   extract_json_brace_span.2.2.2 _ 4 9 (by decide) (by decide) (by decide)⟩

theorem splitDigits_le (cs : List Char) : (splitDigits cs).2.length ≤ cs.length := by
  induction cs with
  | nil => simp [splitDigits]
  | cons c t ih =>
    by_cases h : c.isDigit
    · simp only [splitDigits, h, if_true]
      exact le_trans ih (by simp)
    · simp [splitDigits, h]

theorem splitDigits_cons_digit (c : Char) (t : List Char) (h : c.isDigit = true) :
    splitDigits (c :: t) = (c :: (splitDigits t).1, (splitDigits t).2) := by
  simp [splitDigits, h]

theorem dropWhile_length_le (p : Char → Bool) (cs : List Char) :
    (cs.dropWhile p).length ≤ cs.length := by
  induction cs with
  | nil => simp
  | cons c t ih =>
    by_cases h : p c
    · simp only [List.dropWhile_cons_of_pos h]
      exact le_trans ih (by simp)
    · simp [List.dropWhile_cons_of_neg h]

theorem matchUnit_le (cs rest : List Char) (fac : ℚ) (h : matchUnit cs = some (fac, rest)) :
    rest.length ≤ cs.length := by
  match cs, h with
  | c1 :: c2 :: c3 :: r, h =>
    simp only [matchUnit] at h
    split at h
    · cases h; simp; try omega
    · split at h
      · cases h; simp; try omega
      · split at h
        · cases h; simp; try omega
        · split at h
          · cases h; simp; try omega
          · cases h
  | [c1, c2], h =>
    simp only [matchUnit] at h
    split at h
    · cases h; simp; try omega
    · cases h

theorem tryTok_rest_lt (cs rest : List Char) (v : ℚ) (h : tryTok cs = some (v, rest)) :
    rest.length < cs.length := by
  match cs, h with
  | c :: t, h =>
    simp only [tryTok] at h
    by_cases hd : c.isDigit
    · rw [if_pos hd] at h
      rw [splitDigits_cons_digit c t hd] at h
      simp only at h
      have h1 : (splitDigits t).2.length ≤ t.length := splitDigits_le t
      -- name the fraction result and bound its length
      rcases hc : (splitDigits t).2 with _ | ⟨x, u⟩
      · rw [hc] at h
        simp only at h
        -- p2 = ([], [])
        rcases hm : matchUnit (List.dropWhile pySpace []) with _ | ⟨fac, r4⟩
        · simp only [hm] at h; exact Option.noConfusion h
        · simp only [hm] at h
          have h4 := matchUnit_le _ _ _ hm
          by_cases hb : boundaryOk r4
          · rw [if_pos hb] at h
            cases h
            simp at h4
            simp [h4]
          · rw [if_neg hb] at h; cases h
      · rw [hc] at h
        simp only at h
        by_cases hx : (x == '.') = true
        · rw [if_pos hx] at h
          by_cases he : (splitDigits u).1.isEmpty
          · rw [if_pos he] at h
            -- p2.2 = (splitDigits t).2 = x :: u
            have h2 : (x :: u).length ≤ t.length := by rw [← hc]; exact h1
            rcases hm : matchUnit (List.dropWhile pySpace (x :: u)) with _ | ⟨fac, r4⟩
            · simp only [hm] at h; exact Option.noConfusion h
            · simp only [hm] at h
              have h4 := matchUnit_le _ _ _ hm
              have h5 := dropWhile_length_le pySpace (x :: u)
              by_cases hb : boundaryOk r4
              · rw [if_pos hb] at h
                cases h
                simp only [List.length_cons]
                omega
              · rw [if_neg hb] at h; cases h
          · rw [if_neg he] at h
            have h2 : (splitDigits u).2.length ≤ u.length := splitDigits_le u
            have h3 : (x :: u).length ≤ t.length := by rw [← hc]; exact h1
            rcases hm : matchUnit (List.dropWhile pySpace (splitDigits u).2) with _ | ⟨fac, r4⟩
            · simp only [hm] at h; exact Option.noConfusion h
            · simp only [hm] at h
              have h4 := matchUnit_le _ _ _ hm
              have h5 := dropWhile_length_le pySpace (splitDigits u).2
              by_cases hb : boundaryOk r4
              · rw [if_pos hb] at h
                cases h
                simp only [List.length_cons] at h3 h4 h5 ⊢
                omega
              · rw [if_neg hb] at h; cases h
        · rw [if_neg (by simpa using hx)] at h
          have h2 : (x :: u).length ≤ t.length := by rw [← hc]; exact h1
          rcases hm : matchUnit (List.dropWhile pySpace (x :: u)) with _ | ⟨fac, r4⟩
          · simp only [hm] at h; exact Option.noConfusion h
          · simp only [hm] at h
            have h4 := matchUnit_le _ _ _ hm
            have h5 := dropWhile_length_le pySpace (x :: u)
            by_cases hb : boundaryOk r4
            · rw [if_pos hb] at h
              cases h
              simp only [List.length_cons] at h2 h4 h5 ⊢
              omega
            · rw [if_neg hb] at h; cases h
    · rw [if_neg hd] at h
      cases h
  | [], h => cases h

theorem tryTok_nondigit (c : Char) (t : List Char) (h : c.isDigit = false) :
    tryTok (c :: t) = none := by
  simp [tryTok, h]

theorem scanAux_fuel : ∀ (n : Nat) (cs : List Char), cs.length ≤ n →
    ∀ f1 f2, cs.length ≤ f1 → cs.length ≤ f2 → scanAux f1 cs = scanAux f2 cs := by
  intro n
  induction n with
  | zero =>
    intro cs hn f1 f2 h1 h2
    have : cs = [] := by
      cases cs
      · rfl
      · simp at hn
    subst this
    cases f1 <;> cases f2 <;> rfl
  | succ n ih =>
    intro cs hn f1 f2 h1 h2
    cases cs with
    | nil => cases f1 <;> cases f2 <;> rfl
    | cons c t =>
      simp only [List.length_cons] at hn h1 h2
      obtain ⟨f1', rfl⟩ : ∃ k, f1 = k + 1 := ⟨f1 - 1, by omega⟩
      obtain ⟨f2', rfl⟩ : ∃ k, f2 = k + 1 := ⟨f2 - 1, by omega⟩
      simp only [scanAux]
      cases htk : tryTok (c :: t) with
      | some p =>
        obtain ⟨v, rest⟩ := p
        dsimp only
        have hr := tryTok_rest_lt _ _ _ htk
        simp only [List.length_cons] at hr
        rw [ih rest (by omega) f1' rest.length (by omega) (by omega),
            ih rest (by omega) f2' rest.length (by omega) (by omega)]
      | none =>
        dsimp only
        exact ih t (by omega) f1' f2' (by omega) (by omega)

theorem scan_eq_cons (c : Char) (t post : List Char) (v : ℚ)
    (h : tryTok (c :: t) = some (v, post)) :
    scanAux (c :: t).length (c :: t) = v :: scanAux post.length post := by
  have hr := tryTok_rest_lt _ _ _ h
  simp only [List.length_cons, scanAux, h]
  rw [scanAux_fuel t.length post (by simp at hr; omega) t.length post.length
    (by simp at hr; omega) (le_refl _)]

theorem scan_skip_pre (pre cs : List Char) (h : ∀ c ∈ pre, c.isDigit = false) :
    scanAux (pre ++ cs).length (pre ++ cs) = scanAux cs.length cs := by
  induction pre with
  | nil => simp
  | cons c p ih =>
    have hc : c.isDigit = false := h c (List.mem_cons_self _ _)
    simp only [List.cons_append, List.length_cons, scanAux,
      tryTok_nondigit c _ hc]
    simp only [List.length_append, List.append_eq] at ih ⊢
    exact ih (fun x hx => h x (List.mem_cons_of_mem _ hx))

theorem scan_no_digit : ∀ (f : Nat) (cs : List Char), (∀ c ∈ cs, c.isDigit = false) →
    scanAux f cs = [] := by
  intro f
  induction f with
  | zero => intro cs h; rfl
  | succ f ih =>
    intro cs h
    cases cs with
    | nil => rfl
    | cons c t =>
      simp only [scanAux, tryTok_nondigit c t (h c (List.mem_cons_self _ _))]
      exact ih t (fun x hx => h x (List.mem_cons_of_mem _ hx))

theorem splitDigits_append (ds r : List Char) (hds : ∀ c ∈ ds, c.isDigit = true)
    (hr : ∀ x t, r = x :: t → x.isDigit = false) : splitDigits (ds ++ r) = (ds, r) := by
  induction ds with
  | nil =>
    cases r with
    | nil => rfl
    | cons x t => simp [splitDigits, hr x t rfl]
  | cons c cs' ih =>
    have hc : c.isDigit = true := hds c (List.mem_cons_self _ _)
    rw [List.cons_append, splitDigits_cons_digit c _ hc,
      ih (fun x hx => hds x (List.mem_cons_of_mem _ hx))]

theorem pySpace_not_digit (c : Char) (h : pySpace c = true) :
    c.isDigit = false ∧ (c == '.') = false := by
  simp only [pySpace, Bool.or_eq_true, beq_iff_eq] at h
  rcases h with ((((rfl | rfl) | rfl) | rfl) | rfl) | rfl <;> exact ⟨by decide, by decide⟩

theorem unit_head (un : List Char) (fac : ℚ) (h : UnitTok un fac) :
    ∃ x t, un = x :: t ∧ x.isDigit = false ∧ pySpace x = false ∧ (x == '.') = false := by
  cases h with
  | ghz c1 c2 c3 h1 h2 h3 =>
    rcases h1 with rfl | rfl <;> exact ⟨_, _, rfl, by decide, by decide, by decide⟩
  | mhz c1 c2 c3 h1 h2 h3 =>
    rcases h1 with rfl | rfl <;> exact ⟨_, _, rfl, by decide, by decide, by decide⟩
  | khz c1 c2 c3 h1 h2 h3 =>
    rcases h1 with rfl | rfl <;> exact ⟨_, _, rfl, by decide, by decide, by decide⟩
  | hz c1 c2 h1 h2 =>
    rcases h1 with rfl | rfl <;> exact ⟨_, _, rfl, by decide, by decide, by decide⟩

theorem matchUnit_unit (un post : List Char) (fac : ℚ) (h : UnitTok un fac) :
    matchUnit (un ++ post) = some (fac, post) := by
  cases h with
  | ghz c1 c2 c3 h1 h2 h3 =>
    rcases h1 with rfl | rfl <;> rcases h2 with rfl | rfl <;> rcases h3 with rfl | rfl <;>
      · show matchUnit (_ :: _ :: _ :: post) = _
        simp only [matchUnit]
        rw [if_pos (by decide)]
  | mhz c1 c2 c3 h1 h2 h3 =>
    rcases h1 with rfl | rfl <;> rcases h2 with rfl | rfl <;> rcases h3 with rfl | rfl <;>
      · show matchUnit (_ :: _ :: _ :: post) = _
        simp only [matchUnit]
        rw [if_neg (by decide), if_pos (by decide)]
  | khz c1 c2 c3 h1 h2 h3 =>
    rcases h1 with rfl | rfl <;> rcases h2 with rfl | rfl <;> rcases h3 with rfl | rfl <;>
      · show matchUnit (_ :: _ :: _ :: post) = _
        simp only [matchUnit]
        rw [if_neg (by decide), if_neg (by decide), if_pos (by decide)]
  | hz c1 c2 h1 h2 =>
    have hg : (c1.toLower == 'g') = false := by rcases h1 with rfl | rfl <;> decide
    have hm : (c1.toLower == 'm') = false := by rcases h1 with rfl | rfl <;> decide
    have hk : (c1.toLower == 'k') = false := by rcases h1 with rfl | rfl <;> decide
    have hh : (c1.toLower == 'h') = true := by rcases h1 with rfl | rfl <;> decide
    have hzz : (c2.toLower == 'z') = true := by rcases h2 with rfl | rfl <;> decide
    cases post with
    | nil =>
      show matchUnit [c1, c2] = _
      simp only [matchUnit]
      rw [if_pos (by simp [hh, hzz])]
    | cons p rest =>
      show matchUnit (c1 :: c2 :: p :: rest) = _
      simp only [matchUnit]
      rw [if_neg (by simp [hg]), if_neg (by simp [hm]), if_neg (by simp [hk]),
        if_pos (by simp [hh, hzz])]

theorem tryTok_token (d : Char) (ds fp sp un post : List Char) (fac : ℚ)
    (hd : d.isDigit = true) (hds : ∀ c ∈ ds, c.isDigit = true)
    (hfp : ∀ c ∈ fp, c.isDigit = true) (hsp : ∀ c ∈ sp, pySpace c = true)
    (hun : UnitTok un fac)
    (hpost : post = [] ∨ ∃ p rest, post = p :: rest ∧ pyWordChar p = false) :
    tryTok ((d :: ds) ++ (if fp.isEmpty then [] else '.' :: fp) ++ sp ++ un ++ post) =
      some (numValue (d :: ds) fp * fac, post) := by
  obtain ⟨ux, ut, huc, hud, hus, hup⟩ := unit_head un fac hun
  -- head character of the material after the digits and optional fraction
  have hrest2 : ∀ x t, sp ++ un ++ post = x :: t → x.isDigit = false ∧ (x == '.') = false := by
    intro x t hx
    cases sp with
    | nil =>
      rw [huc] at hx
      simp only [List.nil_append, List.cons_append, List.cons.injEq] at hx
      exact ⟨hx.1 ▸ hud, hx.1 ▸ hup⟩
    | cons s sp' =>
      simp only [List.cons_append, List.cons.injEq] at hx
      have := pySpace_not_digit s (hsp s (List.mem_cons_self _ _))
      exact ⟨hx.1 ▸ this.1, hx.1 ▸ this.2⟩
  have hboundary : boundaryOk post = true := by
    rcases hpost with rfl | ⟨p, rest, rfl, hw⟩
    · rfl
    · simp [boundaryOk, hw]
  have hdrop : List.dropWhile pySpace (sp ++ un ++ post) = un ++ post := by
    rw [List.append_assoc, List.dropWhile_append_of_pos hsp, huc]
    rw [List.cons_append, List.dropWhile_cons_of_neg (by simp [hus]), ← List.cons_append]
  have hmu : matchUnit (un ++ post) = some (fac, post) := matchUnit_unit un post fac hun
  have hddig : ∀ c ∈ d :: ds, c.isDigit = true := by
    intro c hc
    rcases List.mem_cons.mp hc with rfl | hmem
    · exact hd
    · exact hds c hmem
  have hRshape : ∃ x t, sp ++ un ++ post = x :: t := by
    cases sp with
    | nil => exact ⟨ux, ut ++ post, by simp [huc]⟩
    | cons s sp' => exact ⟨s, sp' ++ un ++ post, by simp⟩
  obtain ⟨x, t, hxt⟩ := hRshape
  obtain ⟨hxd, hxp⟩ := hrest2 x t hxt
  have hxt' : sp ++ (un ++ post) = x :: t := by rw [← List.append_assoc]; exact hxt
  have hdrop' : List.dropWhile pySpace (x :: t) = un ++ post := by
    rw [← hxt']
    rw [← List.append_assoc]
    exact hdrop
  cases fp with
  | nil =>
    simp only [List.isEmpty_nil, if_true, List.append_nil, List.cons_append, List.append_assoc]
    have hsplit : splitDigits (d :: (ds ++ (sp ++ (un ++ post)))) = (d :: ds, x :: t) := by
      have h1 : (d :: ds) ++ (sp ++ (un ++ post)) = d :: (ds ++ (sp ++ (un ++ post))) := by
        simp
      rw [← h1, hxt']
      rw [hxt'] at h1
      exact splitDigits_append (d :: ds) (x :: t) hddig
        (by intro y s hys; cases hys; exact hxd)
    simp only [tryTok, hd, if_true, hsplit]
    rw [if_neg (by simp [hxp])]
    simp only [hdrop', hmu, hboundary, if_true]
  | cons f1 fp' =>
    simp only [List.isEmpty_cons, Bool.false_eq_true, if_false, List.cons_append,
      List.append_assoc]
    have hfr : (f1 :: fp') ++ (sp ++ (un ++ post)) = f1 :: (fp' ++ (sp ++ (un ++ post))) := by
      simp
    have hsplit1 : splitDigits (d :: (ds ++ ('.' :: (f1 :: (fp' ++ (sp ++ (un ++ post))))))) =
        (d :: ds, '.' :: (f1 :: (fp' ++ (sp ++ (un ++ post))))) := by
      show splitDigits ((d :: ds) ++ ('.' :: ((f1 :: fp') ++ (sp ++ (un ++ post))))) = _
      exact splitDigits_append _ _ hddig (by intro y s hys; cases hys; decide)
    have hsplit2 : splitDigits (f1 :: (fp' ++ (sp ++ (un ++ post)))) =
        (f1 :: fp', x :: t) := by
      show splitDigits ((f1 :: fp') ++ (sp ++ (un ++ post))) = _
      rw [show sp ++ (un ++ post) = x :: t from hxt']
      exact splitDigits_append _ _ (fun c hc => hfp c hc)
        (by intro y s hys; cases hys; exact hxd)
    simp only [tryTok, hd, if_true]
    rw [hsplit1]
    try dsimp only
    simp only [beq_self_eq_true, if_true, hsplit2, List.isEmpty_cons, Bool.false_eq_true,
      if_false, hdrop', hmu, hboundary]

/-- C7: extract_frequencies returns one value per number-unit token, left to
right, no deduplication, with factors 1 / 10^3 / 10^6 / 10^9 for hz / khz /
mhz / ghz case-insensitively; digit-free text yields the empty list. The first
conjunct covers digit-free inputs, the second is the general token shape
(leading non-digits, integer digits, optional fractional part, optional
whitespace, case-insensitive unit, word boundary) peeling one token at a time,
and the rest are the concrete examples from the spec. -/
theorem extract_frequencies_tokens :
    (∀ s : String, (∀ c ∈ s.toList, c.isDigit = false) → Parser.extract_frequencies s = []) ∧
    (∀ (pre : List Char) (d : Char) (ds fp sp un post : List Char) (fac : ℚ),
      (∀ c ∈ pre, c.isDigit = false) → d.isDigit = true → (∀ c ∈ ds, c.isDigit = true) →
      (∀ c ∈ fp, c.isDigit = true) → (∀ c ∈ sp, pySpace c = true) → UnitTok un fac →
      (post = [] ∨ ∃ p rest, post = p :: rest ∧ pyWordChar p = false) →
      Parser.extract_frequencies (String.mk
          (pre ++ ((d :: ds) ++ (if fp.isEmpty then [] else '.' :: fp) ++ sp ++ un ++ post))) =
        numValue (d :: ds) fp * fac :: Parser.extract_frequencies (String.mk post)) ∧
    Parser.extract_frequencies "2.4GHz and 5 GHz" = [2400000000, 5000000000] ∧
    Parser.extract_frequencies "1hz 2KHz 3Mhz 4gHz" = [1, 2000, 3000000, 4000000000] ∧
    Parser.extract_frequencies "5ghz 5ghz" = [5000000000, 5000000000] ∧
    Parser.extract_frequencies "" = [] := by
  have c1 : '1'.toNat - 48 = 1 := by decide
  have c2 : '2'.toNat - 48 = 2 := by decide
  have c3 : '3'.toNat - 48 = 3 := by decide
  have c4 : '4'.toNat - 48 = 4 := by decide
  have c5 : '5'.toNat - 48 = 5 := by decide
  refine ⟨?_, ?_, ?_, ?_, ?_, rfl⟩
  · intro s h
    exact scan_no_digit _ _ h
  · intro pre d ds fp sp un post fac hpre hd hds hfp hsp hun hpost
    have htok := tryTok_token d ds fp sp un post fac hd hds hfp hsp hun hpost
    show scanAux (pre ++ ((d :: ds) ++ _ ++ sp ++ un ++ post)).length
        (pre ++ ((d :: ds) ++ _ ++ sp ++ un ++ post)) =
      numValue (d :: ds) fp * fac :: scanAux post.length post
    rw [scan_skip_pre pre _ hpre]
    exact scan_eq_cons d _ post _ htok
  · have h : Parser.extract_frequencies "2.4GHz and 5 GHz"
        = [numValue ['2'] ['4'] * 1000000000, numValue ['5'] [] * 1000000000] := rfl
    rw [h]; norm_num [numValue, digitsToNat, c2, c4, c5]
  · have h : Parser.extract_frequencies "1hz 2KHz 3Mhz 4gHz"
        = [numValue ['1'] [] * 1, numValue ['2'] [] * 1000,
           numValue ['3'] [] * 1000000, numValue ['4'] [] * 1000000000] := rfl
    rw [h]; norm_num [numValue, digitsToNat, c1, c2, c3, c4]
  · have h : Parser.extract_frequencies "5ghz 5ghz"
        = [numValue ['5'] [] * 1000000000, numValue ['5'] [] * 1000000000] := rfl
    rw [h]; norm_num [numValue, digitsToNat, c5]

/-- C7 witness: the digit-free conjunct at a concrete string and the token
conjunct at a concrete single "7 GHz" token. -/
theorem extract_frequencies_tokens_witness :
    Parser.extract_frequencies "no digits here" = [] ∧
    Parser.extract_frequencies (String.mk
        (['x', ' '] ++ (('7' :: []) ++ (if ([] : List Char).isEmpty then [] else '.' :: []) ++
          [' '] ++ ['G', 'H', 'z'] ++ []))) =
      numValue ['7'] [] * 1000000000 :: Parser.extract_frequencies (String.mk []) :=
  ⟨extract_frequencies_tokens.1 "no digits here" (by decide),
   extract_frequencies_tokens.2.1 ['x', ' '] '7' [] [] [' '] ['G', 'H', 'z'] [] 1000000000
     (by decide) (by decide) (by decide) (by decide) (by decide)
     (UnitTok.ghz 'G' 'H' 'z' (Or.inr rfl) (Or.inr rfl) (Or.inl rfl)) (Or.inl rfl)⟩

theorem paramsDictOk_of_dictGet (fs : List (String × PyVal)) (key : String)
    (d : List (String × PyVal)) (h : dictGet fs key = PyVal.vdict d) :
    paramsDictOk fs key = true := by
  unfold paramsDictOk
  unfold dictGet at h
  cases hg : fs.find? (fun p => p.1 == key) with
  | none => rfl
  | some q =>
    rw [hg] at h
    dsimp only at h ⊢
    rw [h]
    rfl

theorem setdefaultUpdate_ok (fs : List (String × PyVal)) (key : String)
    (kvs : List (String × PyVal)) (h : paramsDictOk fs key = true) :
    ∃ fs', Agent.setdefaultUpdate fs key kvs = Except.ok fs' ∧
      (∀ k, k ≠ key → dictGet fs' k = dictGet fs k) ∧ paramsDictOk fs' key = true := by
  unfold paramsDictOk at h
  unfold Agent.setdefaultUpdate
  cases hf : fs.find? (fun p => p.1 == key) with
  | none =>
    refine ⟨fs ++ [(key, PyVal.vdict (dictUpdate [] kvs))], rfl, ?_, ?_⟩
    · intro k hk
      rw [dictGet_append]
      cases hg : fs.find? (fun p => p.1 == k) with
      | some q => simp [dictGet, hg]
      | none =>
        have hkk : (key == k) = false := by
          simp only [beq_eq_false_iff_ne]
          exact fun hh => hk hh.symm
        simp [dictGet, hg, hkk]
    · unfold paramsDictOk
      rw [List.find?_append, hf]
      simp [PyVal.isDict]
  | some p =>
    rw [hf] at h
    obtain ⟨k1, v1⟩ := p
    dsimp only at h ⊢
    cases v1 with
    | vdict ps =>
      refine ⟨dictSet fs key (PyVal.vdict (dictUpdate ps kvs)), rfl, ?_, ?_⟩
      · intro k hk
        exact dictGet_dictSet_ne fs key k _ hk
      · exact paramsDictOk_of_dictGet _ key _ (dictGet_dictSet_self fs key _)
    | vnone => simp [PyVal.isDict] at h
    | vnum q => simp [PyVal.isDict] at h
    | vstr s => simp [PyVal.isDict] at h
    | vlist xs => simp [PyVal.isDict] at h
    | vparams pp => simp [PyVal.isDict] at h

theorem enrich_task_ok (g freqs t : PyVal) (h : Agent.taskGood t = true) :
    ∃ fs', Agent.enrich_task g freqs t = Except.ok (PyVal.vdict fs') := by
  obtain ⟨fs, rfl⟩ : ∃ fs, t = PyVal.vdict fs := by
    cases t <;> simp [Agent.taskGood] at h ⊢
  simp only [Agent.taskGood] at h
  unfold Agent.enrich_task
  simp only [PyVal.toDict, Except.bind, Bind.bind, pure, Except.pure]
  have hparams : (dictGet fs "action").inStrs
      ["create_geometry", "model", "setup_analysis", "analysis_setup"] = true →
      paramsDictOk fs "params" = true := by
    intro hin
    rw [hin] at h
    simp only [Bool.not_true, Bool.false_or] at h
    unfold paramsDictOk
    cases hf : fs.find? (fun p => p.1 == "params") with
    | none => rfl
    | some p => rw [hf] at h; exact h
  have hsub : ∀ s : String, s ∈ (["create_geometry", "model"] : List String) ∨
      s ∈ (["setup_analysis", "analysis_setup"] : List String) →
      (PyVal.vstr s).inStrs
        ["create_geometry", "model", "setup_analysis", "analysis_setup"] = true := by
    intro s hs
    rcases hs with hs | hs <;> · fin_cases hs <;> decide
  have hinStrs : ∀ (l : List String), (dictGet fs "action").inStrs l = true →
      ∃ s, dictGet fs "action" = PyVal.vstr s ∧ s ∈ l := by
    intro l hl
    cases hv : dictGet fs "action" with
    | vstr s =>
      rw [hv] at hl
      simp only [PyVal.inStrs] at hl
      exact ⟨s, rfl, by simpa using hl⟩
    | vnone => rw [hv] at hl; simp [PyVal.inStrs] at hl
    | vnum q => rw [hv] at hl; simp [PyVal.inStrs] at hl
    | vlist xs => rw [hv] at hl; simp [PyVal.inStrs] at hl
    | vdict gs => rw [hv] at hl; simp [PyVal.inStrs] at hl
    | vparams pp => rw [hv] at hl; simp [PyVal.inStrs] at hl
  by_cases h1 : (dictGet fs "action").inStrs ["create_geometry", "model"] = true
  · obtain ⟨s, hv, hsmem⟩ := hinStrs _ h1
    have hpd := hparams (by rw [hv]; exact hsub s (Or.inl hsmem))
    obtain ⟨fs1, hfs1, hpres, hpd1⟩ := setdefaultUpdate_ok fs "params" [("geometry", g)] hpd
    simp only [h1, if_true, hfs1]
    by_cases h2 : (dictGet fs1 "action").inStrs ["setup_analysis", "analysis_setup"] = true
    · obtain ⟨fs2, hfs2, h2pres, h2pd⟩ :=
        setdefaultUpdate_ok fs1 "params" [("frequency_hz_list", freqs)] hpd1
      simp only [h2, if_true, hfs2]
      exact ⟨fs2, rfl⟩
    · rw [Bool.not_eq_true] at h2
      simp only [h2, Bool.false_eq_true, if_false]
      exact ⟨fs1, rfl⟩
  · rw [Bool.not_eq_true] at h1
    simp only [h1, Bool.false_eq_true, if_false]
    by_cases h2 : (dictGet fs "action").inStrs ["setup_analysis", "analysis_setup"] = true
    · obtain ⟨s, hv, hsmem⟩ := hinStrs _ h2
      have hpd := hparams (by rw [hv]; exact hsub s (Or.inr hsmem))
      obtain ⟨fs2, hfs2, h2pres, h2pd⟩ :=
        setdefaultUpdate_ok fs "params" [("frequency_hz_list", freqs)] hpd
      simp only [h2, if_true, hfs2]
      exact ⟨fs2, rfl⟩
    · rw [Bool.not_eq_true] at h2
      simp only [h2, Bool.false_eq_true, if_false]
      exact ⟨fs, rfl⟩

theorem enrichTasks_ok (g freqs : PyVal) (ts : List PyVal)
    (h : ∀ t ∈ ts, Agent.taskGood t = true) :
    ∃ ts', Agent.enrichTasks g freqs ts = Except.ok ts' ∧ ∀ u ∈ ts', u.isDict = true := by
  induction ts with
  | nil => exact ⟨[], rfl, by simp⟩
  | cons t rest ih =>
    obtain ⟨ts', hts', hdict⟩ := ih (fun x hx => h x (List.mem_cons_of_mem _ hx))
    obtain ⟨fs', hfs'⟩ := enrich_task_ok g freqs t (h t (List.mem_cons_self _ _))
    refine ⟨PyVal.vdict fs' :: ts', ?_, ?_⟩
    · simp only [Agent.enrichTasks, hfs', hts', Except.bind, Bind.bind, pure, Except.pure]
    · intro u hu
      rcases List.mem_cons.mp hu with rfl | hm
      · rfl
      · exact hdict u hm

theorem processAnt_ok (mgr : HFSSManager) (freqs : PyVal) (tasks : List PyVal) (ant : Antenna)
    (h : ∀ t ∈ tasks, Agent.taskGood t = true) :
    ∃ e, Agent.processAnt mgr freqs tasks ant = Except.ok e ∧
      e.params = ant.design_params ∧ e.type = ant.className ∧
      e.built = mgr.build_dipole ant.design_params := by
  obtain ⟨tfm, htfm, hdict⟩ := enrichTasks_ok (PyVal.vparams ant.design_params) freqs tasks h
  obtain ⟨log, hlog, _, _⟩ := processTasks_ok tfm hdict
  have hif : (if ant.isDipole then mgr.build_dipole ant.design_params
      else mgr.build_dipole ant.design_params) = mgr.build_dipole ant.design_params := by
    by_cases hd : ant.isDipole = true
    · simp only [hd, if_true]
    · rw [Bool.not_eq_true] at hd
      simp only [hd, Bool.false_eq_true, if_false]
  have hrun : Agent.processAnt mgr freqs tasks ant = Except.ok
      { type := ant.className
        params := ant.design_params
        built := if ant.isDipole then mgr.build_dipole ant.design_params
          else mgr.build_dipole ant.design_params
        task_execution := { status := "ok", log := log }
        simulation := mgr.run_simulation (if ant.isDipole then mgr.build_dipole ant.design_params
          else mgr.build_dipole ant.design_params) } := by
    unfold Agent.processAnt
    simp only [htfm, HFSSManager.apply_tasks, hlog, Except.bind, Bind.bind, pure, Except.pure]
  exact ⟨_, hrun, rfl, rfl, hif⟩

theorem processAnts_ok (mgr : HFSSManager) (freqs : PyVal) (tasks : List PyVal)
    (ants : List Antenna) (h : ∀ t ∈ tasks, Agent.taskGood t = true) :
    ∃ entries, Agent.processAnts mgr freqs tasks ants = Except.ok entries ∧
      List.Forall₂ (fun (a : Antenna) (e : AntennaEntry) =>
        e.params = a.design_params ∧ e.type = a.className ∧
        e.built = mgr.build_dipole a.design_params) ants entries := by
  induction ants with
  | nil => exact ⟨[], rfl, List.Forall₂.nil⟩
  | cons a rest ih =>
    obtain ⟨entries, hes, hrel⟩ := ih
    obtain ⟨e, he, hp, htp, hb⟩ := processAnt_ok mgr freqs tasks a h
    refine ⟨e :: entries, ?_, List.Forall₂.cons ⟨hp, htp, hb⟩ hrel⟩
    simp only [Agent.processAnts, he, hes, Except.bind, Bind.bind, pure, Except.pure]

theorem buildAntennas_nums (qs : List ℚ) (h : ∀ q ∈ qs, q ≠ 0) :
    Agent.buildAntennas (PyVal.vstr "dipole") (qs.map PyVal.vnum) =
      Except.ok (qs.map fun q => Antenna.dipole (Dipole.init q none)) := by
  induction qs with
  | nil => rfl
  | cons q rest ih =>
    have hq : q ≠ 0 := h q (List.mem_cons_self _ _)
    have htr : (PyVal.vnum q).truthy = true := by
      simp [PyVal.truthy, hq]
    simp only [List.map_cons, Agent.buildAntennas, htr, Bool.true_eq_false,
      Bool.false_eq_true, if_false, PyVal.lower, Except.bind, Bind.bind, pure, Except.pure,
      PyVal.toFloat, ih (fun x hx => h x (List.mem_cons_of_mem _ hx))]
    rfl

theorem forall2_map_left {α β γ : Type _} (R : β → γ → Prop) (f : α → β) :
    ∀ {l1 : List α} {l2 : List γ}, List.Forall₂ R (l1.map f) l2 →
      List.Forall₂ (fun a c => R (f a) c) l1 l2 := by
  intro l1
  induction l1 with
  | nil =>
    intro l2 h
    cases h
    exact List.Forall₂.nil
  | cons a t ih =>
    intro l2 h
    rw [List.map_cons] at h
    cases h with
    | cons hR hrest => exact List.Forall₂.cons hR (ih hrest)

theorem normalizeAndRun_dipole (req : String) (parsed : PyVal) (use : Bool)
    (at1 at2 f1 f2 fhz : PyVal) (qs : List ℚ) (ts : List PyVal)
    (hat : (at1.por at2).por (PyVal.vstr "dipole") = PyVal.vstr "dipole")
    (hf : (f1.por f2).por (PyVal.vlist []) = PyVal.vlist (qs.map PyVal.vnum))
    (hqs : qs ≠ []) (hq : ∀ q ∈ qs, q ≠ 0)
    (hts : ts.isEmpty = false) (hgood : ∀ t ∈ ts, Agent.taskGood t = true) :
    ∃ entries, Agent.normalizeAndRun req parsed use at1 at2 f1 f2 (PyVal.vlist ts) fhz =
        Except.ok { request := req, spec_from_llm := parsed, antennas := entries } ∧
      entries ≠ [] ∧
      List.Forall₂ (fun (q : ℚ) (e : AntennaEntry) =>
        e.params = (Dipole.init q none).design_params ∧ e.type = "Dipole") qs entries := by
  have hmne : (qs.map PyVal.vnum).isEmpty = false := by
    cases qs with
    | nil => exact absurd rfl hqs
    | cons a t => rfl
  have hpor : (PyVal.vlist (qs.map PyVal.vnum)).por (PyVal.vlist [fhz]) =
      PyVal.vlist (qs.map PyVal.vnum) := by
    simp [PyVal.por, PyVal.truthy, hmne]
  obtain ⟨entries, hes, hrel⟩ := processAnts_ok
    { project_name := "NeuroRF_project", non_graphical := true, use_pyaedt := use }
    (PyVal.vlist (qs.map PyVal.vnum)) ts (qs.map fun q => Antenna.dipole (Dipole.init q none))
    hgood
  refine ⟨entries, ?_, ?_, ?_⟩
  · unfold Agent.normalizeAndRun
    rw [hat, hf]
    simp only [hts, Bool.false_eq_true, if_false, hpor, PyVal.iter,
      buildAntennas_nums qs hq, hes, Except.bind, Bind.bind, pure, Except.pure]
  · intro hnil
    subst hnil
    cases hm : qs.map (fun q => Antenna.dipole (Dipole.init q none)) with
    | nil =>
      cases qs with
      | nil => exact hqs rfl
      | cons a t => simp at hm
    | cons a l =>
      rw [hm] at hrel
      cases hrel
  · have := forall2_map_left _ _ hrel
    refine List.Forall₂.imp ?_ this
    intro q e he
    exact ⟨he.1, he.2.1⟩

/-! ### C5 - frequency resolution and the zero-antenna case (claim corrected) -/

/-- C5 counterexample: generation succeeded (the LLM output carries a
non-empty `tasks` list), "hello" has no frequency token, and no
`frequencies_hz`/`frequency_hz` fields are present; `run_design` then
iterates over `[parsed.get("frequency_hz")] = [None]`, skips the falsy
entry, and returns a response with **zero** antennas - no default 2.4 GHz
is substituted. -/
theorem run_design_zero_antennas_example :
    Agent.run_design "hello" c5Parsed false =
      Except.ok { request := "hello", spec_from_llm := c5Parsed, antennas := [] } := rfl

/-- C5 amended: the resolved frequency iterable follows the precedence
`parsed.get("frequencies_hz")` (if truthy), else the parser-extracted
list (if truthy), else the single-element list
`[parsed.get("frequency_hz")]` - there is **no** 2.4 GHz default, and the
pipeline can proceed with zero antennas.  Conjunct 1: with all three
sources empty the run succeeds with `antennas = []`.  Conjuncts 2 and 3:
with a non-empty LLM-provided (resp. parser-extracted) list of non-zero
frequencies and a well-formed task list, one antenna is instantiated per
listed frequency, in order. -/
theorem run_design_frequency_resolution :
    (∀ (req : String) (pfs : List (String × PyVal)) (use : Bool) (ts : List PyVal),
      dictGet pfs "tasks" = PyVal.vlist ts → ts.isEmpty = false →
      dictGet pfs "frequencies_hz" = PyVal.vnone →
      dictGet pfs "frequency_hz" = PyVal.vnone →
      Parser.extract_frequencies (pyStrip req) = [] →
      Agent.run_design req (PyVal.vdict pfs) use =
        Except.ok { request := req, spec_from_llm := PyVal.vdict pfs, antennas := [] }) ∧
    (∀ (req : String) (pfs : List (String × PyVal)) (use : Bool) (ts : List PyVal) (qs : List ℚ),
      dictGet pfs "antenna_type" = PyVal.vstr "dipole" →
      dictGet pfs "frequencies_hz" = PyVal.vlist (qs.map PyVal.vnum) →
      qs ≠ [] → (∀ q ∈ qs, q ≠ 0) →
      dictGet pfs "tasks" = PyVal.vlist ts → ts.isEmpty = false →
      (∀ t ∈ ts, Agent.taskGood t = true) →
      ∃ entries, Agent.run_design req (PyVal.vdict pfs) use =
          Except.ok { request := req, spec_from_llm := PyVal.vdict pfs, antennas := entries } ∧
        entries ≠ [] ∧
        List.Forall₂ (fun (q : ℚ) (e : AntennaEntry) =>
          e.params = (Dipole.init q none).design_params ∧ e.type = "Dipole") qs entries) ∧
    (∀ (req : String) (pfs : List (String × PyVal)) (use : Bool) (ts : List PyVal) (qs : List ℚ),
      dictGet pfs "antenna_type" = PyVal.vnone →
      Parser.antennaTypeHint (pyStrip req) = PyVal.vnone →
      dictGet pfs "frequencies_hz" = PyVal.vnone →
      Parser.extract_frequencies (pyStrip req) = qs →
      qs ≠ [] → (∀ q ∈ qs, q ≠ 0) →
      dictGet pfs "tasks" = PyVal.vlist ts → ts.isEmpty = false →
      (∀ t ∈ ts, Agent.taskGood t = true) →
      ∃ entries, Agent.run_design req (PyVal.vdict pfs) use =
          Except.ok { request := req, spec_from_llm := PyVal.vdict pfs, antennas := entries } ∧
        entries ≠ [] ∧
        List.Forall₂ (fun (q : ℚ) (e : AntennaEntry) =>
          e.params = (Dipole.init q none).design_params ∧ e.type = "Dipole") qs entries) := by
  refine ⟨?_, ?_, ?_⟩
  · intro req pfs use ts htasks htsE hfhz1 hfhz2 hext
    rw [run_design_eq, htasks, hfhz1, hfhz2, hext]
    simp only [Agent.normalizeAndRun, List.map_nil, PyVal.por, PyVal.truthy, PyVal.iter,
      Agent.buildAntennas, Agent.processAnts, htsE, Bool.false_eq_true, if_false,
      List.isEmpty_nil, Bool.not_true, Bool.not_false, if_true,
      Except.bind, Bind.bind, pure, Except.pure]
  · intro req pfs use ts qs hat hfreqs hqs hq htasks htsE hgood
    rw [run_design_eq, hat, hfreqs, htasks]
    have hmne : (qs.map PyVal.vnum).isEmpty = false := by
      cases qs with
      | nil => exact absurd rfl hqs
      | cons a t => rfl
    exact normalizeAndRun_dipole req (PyVal.vdict pfs) use _ _ _ _ _ qs ts
      (by simp [PyVal.por, PyVal.truthy, show ("dipole" : String).isEmpty = false by decide])
      (by simp [PyVal.por, PyVal.truthy, hmne])
      hqs hq htsE hgood
  · intro req pfs use ts qs hat hhint hfhz hext hqs hq htasks htsE hgood
    rw [run_design_eq, hat, hhint, hfhz, hext, htasks]
    have hmne : (qs.map PyVal.vnum).isEmpty = false := by
      cases qs with
      | nil => exact absurd rfl hqs
      | cons a t => rfl
    exact normalizeAndRun_dipole req (PyVal.vdict pfs) use _ _ _ _ _ qs ts
      (by simp [PyVal.por, PyVal.truthy])
      (by simp [PyVal.por, PyVal.truthy, hmne])
      hqs hq htsE hgood

/-- C5 witness: conjunct 1 at the zero-antenna input and conjunct 2 at a
single 2.4 GHz LLM-provided frequency. -/
theorem run_design_frequency_resolution_witness :
    (Agent.run_design "hello" c5Parsed false =
      Except.ok { request := "hello", spec_from_llm := c5Parsed, antennas := [] }) ∧
    ∃ entries, Agent.run_design "x" (PyVal.vdict c5bFields) false =
        Except.ok { request := "x", spec_from_llm := PyVal.vdict c5bFields,
                    antennas := entries } ∧
      entries ≠ [] ∧
      List.Forall₂ (fun (q : ℚ) (e : AntennaEntry) =>
        e.params = (Dipole.init q none).design_params ∧ e.type = "Dipole")
        [2400000000] entries :=
  ⟨run_design_frequency_resolution.1 "hello" [("tasks", PyVal.vlist [c5Task])] false [c5Task]
      rfl rfl rfl rfl rfl,
   run_design_frequency_resolution.2.1 "x" c5bFields false [c5Task] [2400000000]
      rfl rfl (by simp) (by intro q hq; simp at hq; subst hq; norm_num)
      rfl rfl (by intro t ht; simp at ht; subst ht; rfl)⟩

theorem except_bind_ok {α β : Type _} (m : Except String α) (f : α → Except String β)
    (r : β) (h : (m >>= f) = Except.ok r) : ∃ a, m = Except.ok a ∧ f a = Except.ok r := by
  cases m with
  | error e => simp [Bind.bind, Except.bind] at h
  | ok a => exact ⟨a, rfl, by simpa [Bind.bind, Except.bind] using h⟩

theorem processAnt_built (mgr : HFSSManager) (freqs : PyVal) (tasks : List PyVal)
    (ant : Antenna) (e : AntennaEntry)
    (h : Agent.processAnt mgr freqs tasks ant = Except.ok e) :
    e.built = mgr.build_dipole e.params := by
  simp only [Agent.processAnt] at h
  obtain ⟨tfm, htfm, h⟩ := except_bind_ok _ _ _ h
  obtain ⟨texec, htex, h⟩ := except_bind_ok _ _ _ h
  simp only [pure, Except.pure, Except.ok.injEq] at h
  subst h
  dsimp only
  by_cases hd : ant.isDipole = true
  · simp only [hd, if_true]
  · rw [Bool.not_eq_true] at hd
    simp only [hd, Bool.false_eq_true, if_false]

theorem processAnts_built (mgr : HFSSManager) (freqs : PyVal) (tasks : List PyVal) :
    ∀ (ants : List Antenna) (entries : List AntennaEntry),
      Agent.processAnts mgr freqs tasks ants = Except.ok entries →
      ∀ e ∈ entries, e.built = mgr.build_dipole e.params := by
  intro ants
  induction ants with
  | nil =>
    intro entries h e he
    simp only [Agent.processAnts, Except.ok.injEq] at h
    subst h
    cases he
  | cons a rest ih =>
    intro entries h e he
    simp only [Agent.processAnts] at h
    obtain ⟨e1, he1, h⟩ := except_bind_ok _ _ _ h
    obtain ⟨es, hes, h⟩ := except_bind_ok _ _ _ h
    simp only [pure, Except.pure, Except.ok.injEq] at h
    subst h
    rcases List.mem_cons.mp he with rfl | hm
    · exact processAnt_built mgr freqs tasks a e he1
    · exact ih es hes e hm

theorem normalizeAndRun_built (req : String) (parsed : PyVal) (use : Bool)
    (at1 at2 f1 f2 tasksV fhz : PyVal) (r : RunResult)
    (h : Agent.normalizeAndRun req parsed use at1 at2 f1 f2 tasksV fhz = Except.ok r) :
    ∀ e ∈ r.antennas, e.built = HFSSManager.build_dipole
      { project_name := "NeuroRF_project", non_graphical := true, use_pyaedt := use }
      e.params := by
  simp only [Agent.normalizeAndRun] at h
  cases tasksV with
  | vnone => simp [Bind.bind, Except.bind] at h
  | vnum q => simp [Bind.bind, Except.bind] at h
  | vstr s => simp [Bind.bind, Except.bind] at h
  | vdict fs => simp [Bind.bind, Except.bind] at h
  | vparams p => simp [Bind.bind, Except.bind] at h
  | vlist ts0 =>
    dsimp only at h
    cases hE : ts0.isEmpty with
    | true =>
      rw [hE] at h
      simp [Bind.bind, Except.bind] at h
    | false =>
      rw [hE] at h
      simp only [Bool.false_eq_true, if_false] at h
      obtain ⟨ts1, hts1, h⟩ := except_bind_ok _ _ _ h
      obtain ⟨iterVals, hiv, h⟩ := except_bind_ok _ _ _ h
      obtain ⟨ants, hants, h⟩ := except_bind_ok _ _ _ h
      obtain ⟨entries, hes, h⟩ := except_bind_ok _ _ _ h
      simp only [pure, Except.pure, Except.ok.injEq] at h
      subst h
      exact processAnts_built _ _ _ _ _ hes

/-! ### C10 - every antenna is built with the dipole capability -/

/-- C10: for every antenna entry of a successful `run_design` response,
the build step called `build_dipole` on the manager the orchestrator
constructed - the descriptor equals `hfss.build_dipole(params)` and
carries `type = "dipole"`, for Patch antennas as well (agent.py line 97
calls `build_dipole` in both branches of its conditional expression). -/
theorem build_always_dipole (req : String) (parsed : PyVal) (use : Bool) (r : RunResult)
    (h : Agent.run_design req parsed use = Except.ok r) :
    ∀ e ∈ r.antennas, e.built = HFSSManager.build_dipole
        { project_name := "NeuroRF_project", non_graphical := true, use_pyaedt := use }
        e.params ∧ e.built.type = "dipole" := by
  simp only [Agent.run_design] at h
  obtain ⟨at1, _, h⟩ := except_bind_ok _ _ _ h
  obtain ⟨at2, _, h⟩ := except_bind_ok _ _ _ h
  obtain ⟨f1, _, h⟩ := except_bind_ok _ _ _ h
  obtain ⟨f2, _, h⟩ := except_bind_ok _ _ _ h
  obtain ⟨tasksV, _, h⟩ := except_bind_ok _ _ _ h
  obtain ⟨fhz, _, h⟩ := except_bind_ok _ _ _ h
  have hb := normalizeAndRun_built req parsed use at1 at2 f1 f2 tasksV fhz r h
  intro e he
  exact ⟨hb e he, by rw [hb e he]; rfl⟩

/-- C10 witness: the concrete patch-antenna run `c10Result`, whose single
entry is a `PatchAntenna` yet carries a `build_dipole` descriptor. -/
theorem build_always_dipole_witness :
    c10Entry ∈ c10Result.antennas ∧
    c10Entry.built = HFSSManager.build_dipole
        { project_name := "NeuroRF_project", non_graphical := true, use_pyaedt := false }
        c10Entry.params ∧ c10Entry.built.type = "dipole" :=
  ⟨List.mem_cons_self c10Entry [],
   (build_always_dipole "req" c10Parsed false c10Result rfl c10Entry
      (List.mem_cons_self c10Entry [])).1,
   (build_always_dipole "req" c10Parsed false c10Result rfl c10Entry
      (List.mem_cons_self c10Entry [])).2⟩
